import Mathlib

/-!
# To-Do application: authentication and ownership

A shallow embedding of the Go sources (`middleware/auth.go`,
`controllers/*.go`, `repository/*.go`, `models/*.go`, `database/db.go`).

Conventions of the embedding

* The relational store is a value `DB` holding the three tables as lists of
  rows; every repository method takes the store and returns its result
  (and, for a write, the new store).
* Everything a Go function reads from its surroundings is an explicit
  argument: each `time.Now()`, each `uuid.New()`, and for each SQL statement a
  `fault : Option String` that is `some e` when the driver reports the
  storage error `e` for that statement (connection loss, value rejected by the
  engine, scan failure) and `none` when the statement executes.  A statement
  that reports an error leaves the tables as they were.
* Third-party packages (`golang-jwt`, `bcrypt`, `uuid`, `encoding/json`,
  `time.ParseDuration`) are not part of the repository; they are the fields of
  `Lib`, over which every theorem is universally quantified.
* `time.Time` and `time.Duration` are integers (nanoseconds), `uuid.UUID` is a
  natural number with `uuid.Nil = 0`.
-/

namespace TodoApp

/-! ## Primitive types -/

/-- Values of `uuid.UUID`. -/
abbrev UUID := Nat

/-- The zero identifier `uuid.Nil`. -/
def uuidNil : UUID := 0

/-- Values of `time.Time`, in nanoseconds. -/
abbrev Time := Int

/-- Values of `time.Duration`, in nanoseconds. -/
abbrev Duration := Int

/-- The constant `time.Hour`. -/
def Hour : Duration := 3600 * 1000000000

/-- Go `strings.HasPrefix s p`. -/
def hasPrefixStr (s p : String) : Bool := p.data.isPrefixOf s.data

/-- Go `strings.TrimPrefix s p`. -/
def trimPrefixStr (s p : String) : String :=
  if hasPrefixStr s p then String.mk (s.data.drop p.data.length) else s

/-! ## models -/

/-- Row of table `users` (`models.User`). -/
structure User where
  ID : UUID
  Username : String
  Email : String
  Password : String
  CreatedAt : Time
  UpdatedAt : Time
deriving DecidableEq, Repr

/-- Row of table `todos` (`models.Todo`). -/
structure Todo where
  ID : UUID
  Title : String
  Description : String
  Completed : Bool
  UserID : UUID
  CreatedAt : Time
  UpdatedAt : Time
deriving DecidableEq, Repr

/-- The structure returned to clients (`models.TodoResponse`). -/
structure TodoResponse where
  ID : UUID
  Title : String
  Description : String
  Completed : Bool
  UserID : UUID
  CreatedAt : Time
deriving DecidableEq, Repr

/-- Method `(*Todo).ToResponse`. -/
def Todo.ToResponse (t : Todo) : TodoResponse :=
  { ID := t.ID, Title := t.Title, Description := t.Description,
    Completed := t.Completed, UserID := t.UserID, CreatedAt := t.CreatedAt }

/-- Payload `models.UpdateTodoRequest`; `Completed` is a `*bool`. -/
structure UpdateTodoRequest where
  Title : String
  Description : String
  Completed : Option Bool
deriving DecidableEq, Repr

/-- Row of table `blacklisted_tokens` (`models.BlacklistedToken`). -/
structure BlacklistedToken where
  ID : UUID
  Token : String
  UserID : UUID
  ExpiresAt : Time
  CreatedAt : Time
deriving DecidableEq, Repr

/-- Payload `models.LoginRequest`. -/
structure LoginRequest where
  Email : String
  Password : String
deriving DecidableEq, Repr

/-- Payload `models.RegisterRequest`. -/
structure RegisterRequest where
  Username : String
  Email : String
  Password : String
deriving DecidableEq, Repr

/-- Payload `models.TokenResponse`. -/
structure TokenResponse where
  Token : String
deriving DecidableEq, Repr

/-! ## database -/

/-- The three tables created by `createTablesIfNotExist`. -/
structure DB where
  users : List User
  todos : List Todo
  blacklisted_tokens : List BlacklistedToken
deriving DecidableEq, Repr

/-! ## middleware: claims, configuration, third-party packages -/

/-- The JWT claims (`middleware.Claims`): `user_id` and the registered claims
the code reads or writes; `ExpiresAt` and `IssuedAt` are `*jwt.NumericDate`. -/
structure Claims where
  UserID : UUID
  ExpiresAt : Option Time
  IssuedAt : Option Time
  Subject : String
deriving DecidableEq, Repr

/-- What the key function sees of `token.Method`: whether it is a
`*jwt.SigningMethodHMAC`, and the `alg` header. -/
inductive SigningMethod where
  | HMAC (alg : String)
  | other (alg : String)
deriving DecidableEq, Repr

/-- What `ValidateToken` reads of the `*jwt.Token` that `jwt.ParseWithClaims`
returns: `token.Claims.(*Claims)` (`none` when the assertion fails) and
`token.Valid`. -/
structure Token where
  Claims : Option Claims
  Valid : Bool
deriving DecidableEq, Repr

/-- The environment variables the code reads with `os.Getenv`. -/
structure Config where
  JWT_SECRET : String
  JWT_EXPIRATION : String
deriving DecidableEq, Repr

/-- The third-party functions the code calls. -/
structure Lib where
  /-- Call `jwt.ParseWithClaims(tokenString, &Claims{}, keyFunc)` at a clock reading. -/
  ParseWithClaims : String → (SigningMethod → Except String String) → Time → Except String Token
  /-- Call `jwt.NewWithClaims(jwt.SigningMethodHS256, claims).SignedString(key)`. -/
  SignedString : Claims → String → Except String String
  /-- Call `jwt.NewNumericDate`. -/
  NewNumericDate : Time → Time
  /-- Call `time.ParseDuration`, `none` on error. -/
  ParseDuration : String → Option Duration
  /-- Method `uuid.UUID.String`. -/
  uuidString : UUID → String
  /-- Call `uuid.Parse`, `none` on error. -/
  uuidParse : String → Option UUID
  /-- Call `bcrypt.GenerateFromPassword(password, bcrypt.DefaultCost)` with the salt drawn. -/
  GenerateFromPassword : String → Nat → Except String String
  /-- Call `bcrypt.CompareHashAndPassword(hash, password)`, `true` when it returns no error. -/
  CompareHashAndPassword : String → String → Bool
  /-- Decoding the body as `models.RegisterRequest`, `none` on error. -/
  decodeRegister : String → Option RegisterRequest
  /-- Decoding the body as `models.LoginRequest`, `none` on error. -/
  decodeLogin : String → Option LoginRequest
  /-- Decoding the body as `models.UpdateTodoRequest`, `none` on error. -/
  decodeUpdateTodo : String → Option UpdateTodoRequest

/-! ## HTTP -/

/-- What a handler writes as the body. -/
inductive Payload where
  /-- Plain text written by `http.Error`: the message and a newline. -/
  | text (msg : String)
  /-- JSON encoding of a `models.TokenResponse`. -/
  | token (t : TokenResponse)
  /-- JSON encoding of a `models.TodoResponse`. -/
  | todo (t : TodoResponse)
  /-- JSON encoding of `map[string]string` with the one key `message`. -/
  | message (m : String)
  /-- Nothing written. -/
  | empty
deriving DecidableEq, Repr

/-- The response as the client sees it. -/
structure Response where
  status : Nat
  /-- Header `Content-Type` when the code sets it. -/
  contentType : Option String
  body : Payload
deriving DecidableEq, Repr

/-- Call `http.Error(w, msg, code)`. -/
def httpError (msg : String) (code : Nat) : Response :=
  { status := code, contentType := some "text/plain; charset=utf-8", body := Payload.text (msg ++ "\n") }

/-- How the handling of a request ends: a response was written, or the
goroutine panicked (the server then aborts the connection). -/
inductive Reply where
  | wrote (r : Response)
  | panicked
deriving DecidableEq, Repr

/-- The part of `*http.Request` the handlers read. -/
structure Request where
  /-- First value of header `Authorization`, if the header is present. -/
  Authorization : Option String
  /-- Route variables, `mux.Vars(r)`. -/
  Vars : List (String × String)
  /-- The raw body. -/
  Body : String
  /-- String-keyed values of `r.Context()`, most recent first. -/
  Context : List (String × UUID)
deriving DecidableEq, Repr

/-- Call `r.Header.Get("Authorization")`: the empty string when absent. -/
def Request.HeaderGetAuthorization (r : Request) : String := r.Authorization.getD ""

/-- Call `r.WithContext(context.WithValue(r.Context(), key, v))`. -/
def Request.WithValue (r : Request) (key : String) (v : UUID) : Request :=
  { r with Context := (key, v) :: r.Context }

/-- Call `r.Context().Value(key).(uuid.UUID)`. -/
def Request.Value (r : Request) (key : String) : Option UUID := r.Context.lookup key

/-- Lookup `mux.Vars(r)[key]`: the empty string when absent. -/
def Request.Var (r : Request) (key : String) : String := (r.Vars.lookup key).getD ""

/-- A request handler: reads the request and the store, ends in a reply and a store. -/
abbrev Handler := Request → DB → Reply × DB

/-! ## repository: TokenRepository -/

/-- Method `TokenRepository.BlacklistToken`: one `INSERT INTO blacklisted_tokens`.
The insert is refused when the driver reports `fault`, when `id` is already a
primary key of the table, or when `userID` references no row of `users`. -/
def TokenRepository.BlacklistToken (db : DB) (token : String) (userID : UUID) (expiresAt : Time)
    (id : UUID) (now : Time) (fault : Option String) : Except String DB :=
  let blacklistedToken : BlacklistedToken :=
    { ID := id, Token := token, UserID := userID, ExpiresAt := expiresAt, CreatedAt := now }
  match fault with
  | some e => .error e
  | none =>
    if db.blacklisted_tokens.any (fun b => b.ID == blacklistedToken.ID) then
      .error "duplicate key value violates unique constraint"
    else if !db.users.any (fun u => u.ID == blacklistedToken.UserID) then
      .error "insert violates foreign key constraint"
    else
      .ok { db with blacklisted_tokens := db.blacklisted_tokens ++ [blacklistedToken] }

/-- Method `TokenRepository.IsTokenBlacklisted`:
`SELECT COUNT(*) FROM blacklisted_tokens WHERE token = $1 AND expires_at > $2`
with `$2 = time.Now()`, then `count > 0`. -/
def TokenRepository.IsTokenBlacklisted (db : DB) (token : String) (now : Time) (fault : Option String) :
    Except String Bool :=
  match fault with
  | some e => .error e
  | none =>
    let count := (db.blacklisted_tokens.filter
      (fun b => b.Token == token && decide (b.ExpiresAt > now))).length
    .ok (decide (count > 0))

/-- Method `TokenRepository.CleanupExpiredTokens`:
`DELETE FROM blacklisted_tokens WHERE expires_at <= $1` with `$1 = time.Now()`. -/
def TokenRepository.CleanupExpiredTokens (db : DB) (now : Time) (fault : Option String) : Except String DB :=
  match fault with
  | some e => .error e
  | none =>
    .ok { db with blacklisted_tokens :=
            db.blacklisted_tokens.filter (fun b => !decide (b.ExpiresAt ≤ now)) }

/-! ## middleware/auth.go -/

/-- The key function `ValidateToken` hands to `jwt.ParseWithClaims`. -/
def keyFunc (cfg : Config) (method : SigningMethod) : Except String String :=
  match method with
  | .HMAC _ => .ok cfg.JWT_SECRET
  | .other alg => .error ("unexpected signing method: " ++ alg)

/-- Clock readings of one `GenerateToken` call. -/
structure GenerateEnv where
  /-- The `time.Now()` under `ExpiresAt`. -/
  expNow : Time
  /-- The `time.Now()` under `IssuedAt`. -/
  iatNow : Time
deriving DecidableEq, Repr

/-- Function `middleware.GenerateToken`. -/
def GenerateToken (lib : Lib) (cfg : Config) (env : GenerateEnv) (userID : UUID) :
    Except String String :=
  let expirationTime : Duration :=
    match lib.ParseDuration cfg.JWT_EXPIRATION with
    | some d => d
    | none => 24 * Hour
  let claims : Claims :=
    { UserID := userID,
      ExpiresAt := some (lib.NewNumericDate (env.expNow + expirationTime)),
      IssuedAt := some (lib.NewNumericDate env.iatNow),
      Subject := lib.uuidString userID }
  match lib.SignedString claims cfg.JWT_SECRET with
  | .error e => .error e
  | .ok tokenString => .ok tokenString

/-- Readings of one `ValidateToken` call. -/
structure ValidateEnv where
  /-- The clock as `jwt.ParseWithClaims` reads it. -/
  parseNow : Time
  /-- The `time.Now()` of the blacklist query. -/
  queryNow : Time
  /-- Storage error of the blacklist query, if any. -/
  queryFault : Option String
deriving DecidableEq, Repr

/-- Function `middleware.ValidateToken`. -/
def ValidateToken (lib : Lib) (cfg : Config) (db : DB) (env : ValidateEnv)
    (tokenString : String) : Except String Claims :=
  match lib.ParseWithClaims tokenString (keyFunc cfg) env.parseNow with
  | .error e => .error e
  | .ok token =>
    match token.Claims, token.Valid with
    | some claims, true =>
      match TokenRepository.IsTokenBlacklisted db tokenString env.queryNow env.queryFault with
      | .error e => .error e
      | .ok true => .error "token is blacklisted"
      | .ok false => .ok claims
    | _, _ => .error "invalid token"

/-- Function `middleware.AuthMiddleware`. -/
def AuthMiddleware (lib : Lib) (cfg : Config) (env : ValidateEnv) (next : Handler) : Handler :=
  fun r db =>
    let authHeader := r.HeaderGetAuthorization
    if authHeader = "" then
      (.wrote (httpError "Authorization header is required" 401), db)
    else if !hasPrefixStr authHeader "Bearer " then
      (.wrote (httpError "Invalid authorization format" 401), db)
    else
      let tokenString := trimPrefixStr authHeader "Bearer "
      match ValidateToken lib cfg db env tokenString with
      | .error _ => (.wrote (httpError "Invalid or expired token" 401), db)
      | .ok claims => next (r.WithValue "userID" claims.UserID) db

/-- Function `middleware.GetUserIDFromContext`: the pair `(uuid.UUID, error)`. -/
def GetUserIDFromContext (r : Request) : UUID × Option String :=
  match r.Value "userID" with
  | none => (uuidNil, some "user ID not found in context")
  | some userID => (userID, none)

/-! ## repository: UserRepository -/

/-- Readings of one `UserRepository.Create` call. -/
structure CreateUserEnv where
  /-- The salt `bcrypt` draws. -/
  salt : Nat
  /-- The `uuid.New()`. -/
  newID : UUID
  /-- The `time.Now()` under `CreatedAt`. -/
  createdNow : Time
  /-- The `time.Now()` under `UpdatedAt`. -/
  updatedNow : Time
  /-- Storage error of the insert, if any. -/
  fault : Option String
deriving DecidableEq, Repr

/-- Method `UserRepository.Create`: hashes the password, fills id and
timestamps, one `INSERT INTO users`.  Returns the user as the caller sees it
afterwards.  The insert is refused when the driver reports the fault, when the
id is already a primary key, or when the email is already stored (`UNIQUE`). -/
def UserRepository.Create (lib : Lib) (db : DB) (env : CreateUserEnv) (user : User) :
    Except String (User × DB) :=
  match lib.GenerateFromPassword user.Password env.salt with
  | .error e => .error e
  | .ok hashedPassword =>
    let user : User :=
      { user with Password := hashedPassword, ID := env.newID,
                  CreatedAt := env.createdNow, UpdatedAt := env.updatedNow }
    match env.fault with
    | some e => .error e
    | none =>
      if db.users.any (fun u => u.ID == user.ID) then
        .error "duplicate key value violates unique constraint"
      else if db.users.any (fun u => u.Email == user.Email) then
        .error "duplicate key value violates unique constraint"
      else
        .ok (user, { db with users := db.users ++ [user] })

/-- Method `UserRepository.GetByEmail`: `SELECT ... FROM users WHERE email = $1`,
first row. -/
def UserRepository.GetByEmail (db : DB) (email : String) (fault : Option String) :
    Except String User :=
  match fault with
  | some e => .error e
  | none =>
    match db.users.find? (fun u => u.Email == email) with
    | none => .error "user not found"
    | some user => .ok user

/-- Method `UserRepository.VerifyPassword`. -/
def UserRepository.VerifyPassword (lib : Lib) (db : DB) (email password : String)
    (fault : Option String) : Except String User :=
  match UserRepository.GetByEmail db email fault with
  | .error e => .error e
  | .ok user =>
    if lib.CompareHashAndPassword user.Password password then .ok user
    else .error "invalid password"

/-! ## repository: TodoRepository -/

/-- Method `TodoRepository.GetByID`: `SELECT ... FROM todos WHERE id = $1`, first row. -/
def TodoRepository.GetByID (db : DB) (id : UUID) (fault : Option String) : Except String Todo :=
  match fault with
  | some e => .error e
  | none =>
    match db.todos.find? (fun t => t.ID == id) with
    | none => .error "todo not found"
    | some todo => .ok todo

/-- Readings of one write of `TodoRepository`. -/
structure WriteEnv where
  /-- The `time.Now()` (read by `Update` only). -/
  now : Time
  /-- Storage error of `db.Exec`, if any. -/
  execFault : Option String
  /-- Error of `result.RowsAffected()`, if any. -/
  rowsFault : Option String
deriving DecidableEq, Repr

/-- Method `TodoRepository.Update`:
`UPDATE todos SET title, description, completed, updated_at WHERE id = $5 AND user_id = $6`.
Returns the error, the todo as the caller sees it afterwards, and the store. -/
def TodoRepository.Update (db : DB) (env : WriteEnv) (todo : Todo) : Option String × Todo × DB :=
  let todo : Todo := { todo with UpdatedAt := env.now }
  match env.execFault with
  | some e => (some e, todo, db)
  | none =>
    let hit : Todo → Bool := fun t => t.ID == todo.ID && t.UserID == todo.UserID
    let db' : DB :=
      { db with todos := db.todos.map (fun t =>
          if hit t then
            { t with Title := todo.Title, Description := todo.Description,
                     Completed := todo.Completed, UpdatedAt := todo.UpdatedAt }
          else t) }
    let rowsAffected := (db.todos.filter hit).length
    match env.rowsFault with
    | some e => (some e, todo, db')
    | none =>
      if rowsAffected = 0 then (some "todo not found or not owned by user", todo, db')
      else (none, todo, db')

/-- Method `TodoRepository.Delete`: `DELETE FROM todos WHERE id = $1 AND user_id = $2`. -/
def TodoRepository.Delete (db : DB) (env : WriteEnv) (id userID : UUID) : Option String × DB :=
  match env.execFault with
  | some e => (some e, db)
  | none =>
    let hit : Todo → Bool := fun t => t.ID == id && t.UserID == userID
    let db' : DB := { db with todos := db.todos.filter (fun t => !hit t) }
    let rowsAffected := (db.todos.filter hit).length
    match env.rowsFault with
    | some e => (some e, db')
    | none =>
      if rowsAffected = 0 then (some "todo not found or not owned by user", db')
      else (none, db')

/-! ## controllers/auth_controller.go -/

/-- Readings of one `AuthController.Register` call. -/
structure RegisterEnv where
  /-- Storage error of the email lookup, if any. -/
  lookupFault : Option String
  create : CreateUserEnv
  generate : GenerateEnv
deriving DecidableEq, Repr

/-- The JSON response carrying a token (status 200 by default). -/
def tokenResponse (token : String) : Response :=
  { status := 200, contentType := some "application/json", body := Payload.token { Token := token } }

/-- Method `AuthController.Register`. -/
def AuthController.Register (lib : Lib) (cfg : Config) (env : RegisterEnv) : Handler :=
  fun r db =>
    match lib.decodeRegister r.Body with
    | none => (.wrote (httpError "Invalid request payload" 400), db)
    | some req =>
      if req.Username = "" ∨ req.Email = "" ∨ req.Password = "" then
        (.wrote (httpError "Username, email, and password are required" 400), db)
      else
        match UserRepository.GetByEmail db req.Email env.lookupFault with
        | .ok _ => (.wrote (httpError "User with this email already exists" 409), db)
        | .error _ =>
          let user : User :=
            { ID := uuidNil, Username := req.Username, Email := req.Email,
              Password := req.Password, CreatedAt := 0, UpdatedAt := 0 }
          match UserRepository.Create lib db env.create user with
          | .error _ => (.wrote (httpError "Failed to create user" 500), db)
          | .ok (user, db') =>
            match GenerateToken lib cfg env.generate user.ID with
            | .error _ => (.wrote (httpError "Failed to generate token" 500), db')
            | .ok token => (.wrote (tokenResponse token), db')

/-- Readings of one `AuthController.Login` call. -/
structure LoginEnv where
  /-- Storage error of the email lookup, if any. -/
  lookupFault : Option String
  generate : GenerateEnv
deriving DecidableEq, Repr

/-- Method `AuthController.Login`. -/
def AuthController.Login (lib : Lib) (cfg : Config) (env : LoginEnv) : Handler :=
  fun r db =>
    match lib.decodeLogin r.Body with
    | none => (.wrote (httpError "Invalid request payload" 400), db)
    | some req =>
      if req.Email = "" ∨ req.Password = "" then
        (.wrote (httpError "Email and password are required" 400), db)
      else
        match UserRepository.VerifyPassword lib db req.Email req.Password env.lookupFault with
        | .error _ => (.wrote (httpError "Invalid credentials" 401), db)
        | .ok user =>
          match GenerateToken lib cfg env.generate user.ID with
          | .error _ => (.wrote (httpError "Failed to generate token" 500), db)
          | .ok token => (.wrote (tokenResponse token), db)

/-- Readings of one `AuthController.Logout` call. -/
structure LogoutEnv where
  validate : ValidateEnv
  /-- The `uuid.New()` of the ledger row. -/
  newID : UUID
  /-- The `time.Now()` under `CreatedAt`. -/
  insertNow : Time
  /-- Storage error of the insert, if any. -/
  insertFault : Option String
deriving DecidableEq, Repr

/-- The response of a successful logout: `WriteHeader(200)` and a JSON message. -/
def logoutResponse : Response :=
  { status := 200, contentType := none, body := Payload.message "Successfully logged out" }

/-- Method `AuthController.Logout`.  Dereferencing `claims.ExpiresAt` panics
when the token carries no `exp`. -/
def AuthController.Logout (lib : Lib) (cfg : Config) (env : LogoutEnv) : Handler :=
  fun r db =>
    match GetUserIDFromContext r with
    | (_, some _) => (.wrote (httpError "Unauthorized" 401), db)
    | (userID, none) =>
      let authHeader := r.HeaderGetAuthorization
      if authHeader = "" ∨ hasPrefixStr authHeader "Bearer " = false then
        (.wrote (httpError "Invalid authorization format" 401), db)
      else
        let tokenString := trimPrefixStr authHeader "Bearer "
        match ValidateToken lib cfg db env.validate tokenString with
        | .error _ => (.wrote (httpError "Invalid token" 401), db)
        | .ok claims =>
          match claims.ExpiresAt with
          | none => (.panicked, db)
          | some expiresAt =>
            match TokenRepository.BlacklistToken db tokenString userID expiresAt
                env.newID env.insertNow env.insertFault with
            | .error _ => (.wrote (httpError "Failed to logout" 500), db)
            | .ok db' => (.wrote logoutResponse, db')

/-! ## controllers/todo_controller.go -/

/-- The JSON response carrying one todo (status 200 by default). -/
def todoResponse (todo : Todo) : Response :=
  { status := 200, contentType := some "application/json", body := Payload.todo todo.ToResponse }

/-- Method `TodoController.GetByID`; `fault` is the storage error of the lookup, if any. -/
def TodoController.GetByID (lib : Lib) (fault : Option String) : Handler :=
  fun r db =>
    match GetUserIDFromContext r with
    | (_, some _) => (.wrote (httpError "Unauthorized" 401), db)
    | (userID, none) =>
      match lib.uuidParse (r.Var "id") with
      | none => (.wrote (httpError "Invalid todo ID" 400), db)
      | some todoID =>
        match TodoRepository.GetByID db todoID fault with
        | .error _ => (.wrote (httpError "Todo not found" 404), db)
        | .ok todo =>
          if todo.UserID ≠ userID then
            (.wrote (httpError "Unauthorized" 401), db)
          else
            (.wrote (todoResponse todo), db)

/-- Readings of one `TodoController.Update` call. -/
structure UpdateEnv where
  /-- Storage error of the lookup, if any. -/
  lookupFault : Option String
  write : WriteEnv
deriving DecidableEq, Repr

/-- Method `TodoController.Update`. -/
def TodoController.Update (lib : Lib) (env : UpdateEnv) : Handler :=
  fun r db =>
    match GetUserIDFromContext r with
    | (_, some _) => (.wrote (httpError "Unauthorized" 401), db)
    | (userID, none) =>
      match lib.uuidParse (r.Var "id") with
      | none => (.wrote (httpError "Invalid todo ID" 400), db)
      | some todoID =>
        match TodoRepository.GetByID db todoID env.lookupFault with
        | .error _ => (.wrote (httpError "Todo not found" 404), db)
        | .ok todo =>
          if todo.UserID ≠ userID then
            (.wrote (httpError "Unauthorized" 401), db)
          else
            match lib.decodeUpdateTodo r.Body with
            | none => (.wrote (httpError "Invalid request payload" 400), db)
            | some req =>
              let todo : Todo := if req.Title ≠ "" then { todo with Title := req.Title } else todo
              let todo : Todo :=
                if req.Description ≠ "" then { todo with Description := req.Description } else todo
              let todo : Todo :=
                match req.Completed with
                | some c => { todo with Completed := c }
                | none => todo
              match TodoRepository.Update db env.write todo with
              | (some _, _, db') => (.wrote (httpError "Failed to update todo" 500), db')
              | (none, todo, db') => (.wrote (todoResponse todo), db')

/-- Method `TodoController.Delete`. -/
def TodoController.Delete (lib : Lib) (env : WriteEnv) : Handler :=
  fun r db =>
    match GetUserIDFromContext r with
    | (_, some _) => (.wrote (httpError "Unauthorized" 401), db)
    | (userID, none) =>
      match lib.uuidParse (r.Var "id") with
      | none => (.wrote (httpError "Invalid todo ID" 400), db)
      | some todoID =>
        match TodoRepository.Delete db env todoID userID with
        | (some _, db') => (.wrote (httpError "Failed to delete todo" 500), db')
        | (none, db') =>
          (.wrote { status := 204, contentType := none, body := Payload.empty }, db')

/-! ## Vocabulary of the statements -/

/-- The token a handler extracts from the `Authorization` header. -/
def Request.bearer (r : Request) : String := trimPrefixStr r.HeaderGetAuthorization "Bearer "

/-- A revocation row for `token` that is still alive at `now`. -/
def liveRow (db : DB) (token : String) (now : Time) : Prop :=
  ∃ b ∈ db.blacklisted_tokens, b.Token = token ∧ b.ExpiresAt > now

instance (db : DB) (token : String) (now : Time) : Decidable (liveRow db token now) := by
  unfold liveRow; exact inferInstance

/-- The step of `ValidateToken` before the ledger: parse, type assertion, `token.Valid`. -/
def parseStep (lib : Lib) (cfg : Config) (tokenString : String) (now : Time) : Except String Claims :=
  match lib.ParseWithClaims tokenString (keyFunc cfg) now with
  | .error e => .error e
  | .ok token =>
    match token.Claims, token.Valid with
    | some claims, true => .ok claims
    | _, _ => .error "invalid token"

/-! ## Concrete data for the worked instances -/

/-- A small instance of the third-party functions: the token `T1` is signed
with `secret`, belongs to user 1 and expires at 100; `T2` likewise for user 2
with expiry 200; `noexp` is signed and carries no `exp`; every other string is
malformed. -/
def demoLib : Lib where
  ParseWithClaims := fun s key now =>
    match key (.HMAC "HS256") with
    | .error e => .error e
    | .ok k =>
      if k ≠ "secret" then .error "signature is invalid"
      else if s = "T1" then
        if now < 100 then
          .ok { Claims := some { UserID := 1, ExpiresAt := some 100, IssuedAt := some 0, Subject := "1" },
                Valid := true }
        else .error "token is expired"
      else if s = "T2" then
        if now < 200 then
          .ok { Claims := some { UserID := 2, ExpiresAt := some 200, IssuedAt := some 0, Subject := "2" },
                Valid := true }
        else .error "token is expired"
      else if s = "noexp" then
        .ok { Claims := some { UserID := 1, ExpiresAt := none, IssuedAt := none, Subject := "1" },
              Valid := true }
      else .error "token is malformed"
  SignedString := fun c k =>
    if k ≠ "secret" then .error "key is of invalid type"
    else if c.UserID = 1 then .ok "T1" else if c.UserID = 2 then .ok "T2" else .ok "T3"
  NewNumericDate := fun t => t
  ParseDuration := fun _ => none
  uuidString := fun u => toString u
  uuidParse := fun s => if s = "11" then some 11 else if s = "12" then some 12 else none
  GenerateFromPassword := fun pw _ => .ok ("hash:" ++ pw)
  CompareHashAndPassword := fun h pw => h == "hash:" ++ pw
  decodeRegister := fun b =>
    if b = "register alice" then some { Username := "alice", Email := "alice@x.com", Password := "pw123" }
    else if b = "register carol" then some { Username := "carol", Email := "carol@x.com", Password := "pw" }
    else none
  decodeLogin := fun b =>
    if b = "login alice wrong" then some { Email := "alice@x.com", Password := "wrong" }
    else if b = "login alice" then some { Email := "alice@x.com", Password := "pw123" }
    else if b = "login nobody" then some { Email := "nobody@x.com", Password := "pw123" }
    else none
  decodeUpdateTodo := fun b =>
    if b = "update" then some { Title := "changed", Description := "", Completed := some true }
    else none

/-- The configuration of the worked instances. -/
def demoCfg : Config := { JWT_SECRET := "secret", JWT_EXPIRATION := "" }

/-- Todo 11, owned by user 1 (alice). -/
def aliceTodo : Todo :=
  { ID := 11, Title := "milk", Description := "buy", Completed := false, UserID := 1,
    CreatedAt := 5, UpdatedAt := 5 }

/-- A request of user 2 (bob), as the middleware forwards it, for todo 11. -/
def bobRequest : Request :=
  { Authorization := some "Bearer T2", Vars := [("id", "11")], Body := "update",
    Context := [("userID", 2)] }

/-- A store with users 1 (alice) and 2 (bob), one todo of each, and an empty ledger. -/
def demoDB : DB :=
  { users := [{ ID := 1, Username := "alice", Email := "alice@x.com", Password := "hash:pw123",
                CreatedAt := 0, UpdatedAt := 0 },
              { ID := 2, Username := "bob", Email := "bob@x.com", Password := "hash:pw456",
                CreatedAt := 0, UpdatedAt := 0 }],
    todos := [aliceTodo,
              { ID := 12, Title := "bread", Description := "bake", Completed := false, UserID := 2,
                CreatedAt := 6, UpdatedAt := 6 }],
    blacklisted_tokens := [] }

/-- A request carrying the given `Authorization` header and nothing else. -/
def bearerRequest (header : String) : Request :=
  { Authorization := some header, Vars := [], Body := "", Context := [] }

/-- Readings of a `ValidateToken` call at one instant with a working store. -/
def validateAt (now : Time) : ValidateEnv :=
  { parseNow := now, queryNow := now, queryFault := none }

/-- Readings of a `Logout` call at one instant with a working store. -/
def logoutAt (now : Time) (newID : UUID) : LogoutEnv :=
  { validate := validateAt now, newID := newID, insertNow := now, insertFault := none }

/-- The ledger row the worked logout of `T1` at time 10 inserts. -/
def demoRow : BlacklistedToken :=
  { ID := 77, Token := "T1", UserID := 1, ExpiresAt := 100, CreatedAt := 10 }

/-- The store after the worked logout. -/
def demoDBAfterLogout : DB := { demoDB with blacklisted_tokens := [demoRow] }

/-- The worked logout request: bearer `T1`, identity 1 attached by the middleware. -/
def demoLogoutRequest : Request :=
  { Authorization := some "Bearer T1", Vars := [], Body := "", Context := [("userID", 1)] }

/-- A request with the given body and nothing else. -/
def bodyRequest (body : String) : Request :=
  { Authorization := none, Vars := [], Body := body, Context := [] }

/-- Readings of a `Register` call at one instant with a working store. -/
def registerAt (now : Time) (newID : UUID) : RegisterEnv :=
  { lookupFault := none,
    create := { salt := 0, newID := newID, createdNow := now, updatedNow := now, fault := none },
    generate := { expNow := now, iatNow := now } }

/-- Readings of a `Login` call at one instant with a working store. -/
def loginAt (now : Time) : LoginEnv :=
  { lookupFault := none, generate := { expNow := now, iatNow := now } }

/-- The store after `T1` is revoked a second time, at time 20. -/
def demoDBAfterSecondLogout : DB :=
  { demoDB with blacklisted_tokens :=
      [demoRow, { ID := 78, Token := "T1", UserID := 1, ExpiresAt := 100, CreatedAt := 20 }] }

/-! ## Runs of the system (C11) -/

/-- The store together with the wall clock. -/
structure World where
  db : DB
  now : Time
deriving DecidableEq, Repr

/-- One step of a run. -/
inductive Step where
  /-- The clock advances to `later`; it never goes back. -/
  | tick (later : Time)
  /-- The route `/api/auth/logout`: `Logout` behind `AuthMiddleware`, for any
  request and any readings. -/
  | logout (gate : ValidateEnv) (env : LogoutEnv) (r : Request)
  /-- The handler `Logout` alone, on any request and any readings. -/
  | logoutHandler (env : LogoutEnv) (r : Request)
  /-- `CleanupExpiredTokens` at the current clock. -/
  | cleanup (fault : Option String)
deriving Repr

/-- The effect of one step. -/
def step (lib : Lib) (cfg : Config) (w : World) : Step → World
  | .tick later => { w with now := max w.now later }
  | .logout gate env r =>
    { w with db := (AuthMiddleware lib cfg gate (AuthController.Logout lib cfg env) r w.db).2 }
  | .logoutHandler env r => { w with db := (AuthController.Logout lib cfg env r w.db).2 }
  | .cleanup fault =>
    match TokenRepository.CleanupExpiredTokens w.db w.now fault with
    | .ok db' => { w with db := db' }
    | .error _ => w

/-- The world after a sequence of steps. -/
def run (lib : Lib) (cfg : Config) (w : World) (steps : List Step) : World :=
  steps.foldl (step lib cfg) w

/-- What the code relies on from `golang-jwt`: a token is accepted only
strictly before its `exp` claim, and the claims decoded from a token string do
not depend on the clock. -/
structure JwtContract (lib : Lib) (cfg : Config) : Prop where
  before_exp : ∀ s now claims e,
    parseStep lib cfg s now = .ok claims → claims.ExpiresAt = some e → now < e
  stable : ∀ s now now' c c',
    parseStep lib cfg s now = .ok c → parseStep lib cfg s now' = .ok c' → c = c'

/-- State `Expired` of a token: the parse step has claims for it at some clock,
and their `exp` is at or before `now`. -/
def Expired (lib : Lib) (cfg : Config) (token : String) (now : Time) : Prop :=
  ∃ t0 claims e, parseStep lib cfg token t0 = .ok claims ∧ claims.ExpiresAt = some e ∧ e ≤ now

/-- State `Revoked` of a token: the ledger holds a row for it whose
`expires_at` is the token's `exp` claim, as `Logout` inserts it. -/
def Revoked (lib : Lib) (cfg : Config) (db : DB) (token : String) : Prop :=
  ∃ b ∈ db.blacklisted_tokens, b.Token = token ∧
    ∃ t0 claims, parseStep lib cfg token t0 = .ok claims ∧ claims.ExpiresAt = some b.ExpiresAt

/-- The two clock readings of one `ValidateToken` call, the one inside
`jwt.ParseWithClaims` and the `time.Now()` of the blacklist query, are not
separated by the token's expiry: it is not the case that the parse reads the
clock before the `exp` claim and the query reads it at or after. -/
def NoStraddle (lib : Lib) (cfg : Config) (token : String) (env : ValidateEnv) : Prop :=
  ∀ t0 claims e, parseStep lib cfg token t0 = .ok claims → claims.ExpiresAt = some e →
    env.queryNow < e ∨ e ≤ env.parseNow

/-- The claims the demo library decodes from `T1`. -/
def claimsT1 : Claims :=
  { UserID := 1, ExpiresAt := some 100, IssuedAt := some 0, Subject := "1" }

/-! ## Issuing and validating (C12) -/

/-- The time-to-live `GenerateToken` uses: `JWT_EXPIRATION` when it parses,
24 hours otherwise. -/
def expirationTime (lib : Lib) (cfg : Config) : Duration :=
  match lib.ParseDuration cfg.JWT_EXPIRATION with
  | some d => d
  | none => 24 * Hour

/-- Round trip of `golang-jwt`: a token signed with the secret parses, under
the key function of `ValidateToken`, to a valid token with the signed claims
at every clock strictly before the `exp` claim. -/
def JwtRoundTrip (lib : Lib) (cfg : Config) : Prop :=
  ∀ (claims : Claims) (tokenString : String) (now : Time),
    lib.SignedString claims cfg.JWT_SECRET = .ok tokenString →
    (∀ e, claims.ExpiresAt = some e → now < e) →
    lib.ParseWithClaims tokenString (keyFunc cfg) now
      = .ok { Claims := some claims, Valid := true }

/-- One second, in nanoseconds. -/
def Second : Duration := 1000000000

/-- Rounding down to whole seconds, as `jwt.NewNumericDate` does with the
default `jwt.TimePrecision`. -/
def truncateSecond (t : Time) : Time := t - t % Second

/-- Claims of the token issued to user 1 at clock 10 s with a time-to-live of 1.5 s. -/
def shortClaims : Claims :=
  { UserID := 1, ExpiresAt := some (11 * Second), IssuedAt := some (10 * Second), Subject := "1" }

/-- Claims of the token issued to user 1 with the default 24 hours, the clock
read just before second 11 for `exp` and just after it for `iat`. -/
def straddleClaims : Claims :=
  { UserID := 1, ExpiresAt := some (86410 * Second), IssuedAt := some (11 * Second),
    Subject := "1" }

/-- An instance of the third-party functions with whole-second numeric dates:
it signs `shortClaims` as `short` and `straddleClaims` as `straddle`, and
accepts each of the two strictly before its `exp`. -/
def secondsLib : Lib where
  ParseWithClaims := fun s key now =>
    match key (.HMAC "HS256") with
    | .error e => .error e
    | .ok k =>
      if k ≠ "secret" then .error "signature is invalid"
      else if s = "short" then
        if now < 11 * Second then .ok { Claims := some shortClaims, Valid := true }
        else .error "token is expired"
      else if s = "straddle" then
        if now < 86410 * Second then .ok { Claims := some straddleClaims, Valid := true }
        else .error "token is expired"
      else .error "token is malformed"
  SignedString := fun c k =>
    if k ≠ "secret" then .error "key is invalid"
    else if c = shortClaims then .ok "short"
    else if c = straddleClaims then .ok "straddle"
    else .error "claims not supported"
  NewNumericDate := truncateSecond
  ParseDuration := fun s => if s = "1500ms" then some (1500 * 1000000) else none
  uuidString := fun u => if u = 1 then "1" else "other"
  uuidParse := fun _ => none
  GenerateFromPassword := fun pw _ => .ok pw
  CompareHashAndPassword := fun h pw => h == pw
  decodeRegister := fun _ => none
  decodeLogin := fun _ => none
  decodeUpdateTodo := fun _ => none

/-- Configuration with a time-to-live of one and a half seconds. -/
def shortCfg : Config := { JWT_SECRET := "secret", JWT_EXPIRATION := "1500ms" }

/-! ## Data for C13, C14, C15 -/

/-- Readings of a todo write at one instant with a working store. -/
def writeAt (now : Time) : WriteEnv := { now := now, execFault := none, rowsFault := none }

/-- Readings of a `TodoController.Update` call at one instant with a working store. -/
def updateAt (now : Time) : UpdateEnv := { lookupFault := none, write := writeAt now }

/-- Readings of a `Register` call whose email lookup reports a storage error
while the insert executes. -/
def registerLookupFails (now : Time) (newID : UUID) : RegisterEnv :=
  { registerAt now newID with lookupFault := some "connection reset by peer" }

/-- The row a registration of carol at clock 10 with id 3 inserts. -/
def carol : User :=
  { ID := 3, Username := "carol", Email := "carol@x.com", Password := "hash:pw",
    CreatedAt := 10, UpdatedAt := 10 }

/-- The store after carol is added. -/
def demoDBWithCarol : DB := { demoDB with users := demoDB.users ++ [carol] }

/-- The row the claim C15 describes for an update of `t` by `req` at clock
`now`: request title and description when non-empty, request `completed` when
present, the old values otherwise; `id`, owner and `created_at` kept;
`updated_at` set to the clock. -/
def specUpdatedTodo (t : Todo) (req : UpdateTodoRequest) (now : Time) : Todo :=
  { ID := t.ID,
    Title := if req.Title = "" then t.Title else req.Title,
    Description := if req.Description = "" then t.Description else req.Description,
    Completed := match req.Completed with
      | some c => c
      | none => t.Completed,
    UserID := t.UserID,
    CreatedAt := t.CreatedAt,
    UpdatedAt := now }

/-- A request of user 1 (alice), as the middleware forwards it, for her todo 11,
with the body that decodes to title `changed`, no description, completed. -/
def aliceRequest : Request :=
  { Authorization := some "Bearer T1", Vars := [("id", "11")], Body := "update",
    Context := [("userID", 1)] }

/-- The demo store after alice's update at clock 20. -/
def demoDBAfterUpdate : DB :=
  { demoDB with todos :=
      [{ ID := 11, Title := "changed", Description := "buy", Completed := true, UserID := 1,
         CreatedAt := 5, UpdatedAt := 20 },
       { ID := 12, Title := "bread", Description := "bake", Completed := false, UserID := 2,
         CreatedAt := 6, UpdatedAt := 6 }] }

/-- Todo 11 of user 1 with other contents. -/
def secretTodo : Todo :=
  { ID := 11, Title := "secret", Description := "plan", Completed := true, UserID := 1,
    CreatedAt := 7, UpdatedAt := 8 }

/-- The demo store with todo 11 holding the other contents. -/
def demoDBOtherContents : DB := { demoDB with todos := [secretTodo] }

/-! ## Shared lemmas -/

theorem IsTokenBlacklisted_executes (db : DB) (token : String) (now : Time) :
    TokenRepository.IsTokenBlacklisted db token now none = .ok (decide (liveRow db token now)) := by
  simp only [TokenRepository.IsTokenBlacklisted, liveRow]
  congr 1
  rw [decide_eq_decide, gt_iff_lt, ← List.countP_eq_length_filter, List.countP_pos_iff]
  simp

theorem IsTokenBlacklisted_fault (db : DB) (token : String) (now : Time) (e : String) :
    TokenRepository.IsTokenBlacklisted db token now (some e) = .error e := rfl

theorem BlacklistToken_ok {db db' : DB} {token : String} {userID : UUID} {expiresAt : Time}
    {id : UUID} {now : Time} {fault : Option String}
    (h : TokenRepository.BlacklistToken db token userID expiresAt id now fault = .ok db') :
    db' = { db with blacklisted_tokens := db.blacklisted_tokens ++
      [{ ID := id, Token := token, UserID := userID, ExpiresAt := expiresAt, CreatedAt := now }] } := by
  unfold TokenRepository.BlacklistToken at h
  cases fault with
  | some e => simp at h
  | none =>
    simp only at h
    split at h
    · simp at h
    · split at h
      · simp at h
      · simpa using h.symm

theorem liveRow_after_blacklist {db db' : DB} {token : String} {userID : UUID} {expiresAt : Time}
    {id : UUID} {now : Time} {fault : Option String}
    (h : TokenRepository.BlacklistToken db token userID expiresAt id now fault = .ok db')
    (token' : String) (now' : Time) :
    liveRow db' token' now' ↔ liveRow db token' now' ∨ (token' = token ∧ now' < expiresAt) := by
  rw [BlacklistToken_ok h]
  simp only [liveRow, List.mem_append, List.mem_singleton]
  constructor
  · rintro ⟨b, hb | hb, h1, h2⟩
    · exact Or.inl ⟨b, hb, h1, h2⟩
    · subst hb; exact Or.inr ⟨h1.symm, h2⟩
  · rintro (⟨b, hb, h1, h2⟩ | ⟨h1, h2⟩)
    · exact ⟨b, Or.inl hb, h1, h2⟩
    · exact ⟨_, Or.inr rfl, h1.symm, h2⟩

theorem ValidateToken_eq (lib : Lib) (cfg : Config) (db : DB) (env : ValidateEnv)
    (tokenString : String) :
    ValidateToken lib cfg db env tokenString =
      match parseStep lib cfg tokenString env.parseNow with
      | .error e => .error e
      | .ok claims =>
        match TokenRepository.IsTokenBlacklisted db tokenString env.queryNow env.queryFault with
        | .error e => .error e
        | .ok true => .error "token is blacklisted"
        | .ok false => .ok claims := by
  unfold ValidateToken parseStep
  cases lib.ParseWithClaims tokenString (keyFunc cfg) env.parseNow with
  | error e => rfl
  | ok token =>
    rcases token with ⟨claims, valid⟩
    cases claims <;> cases valid <;> rfl

/-! ## C1: logout revokes -/

theorem ValidateToken_fails_of_liveRow (lib : Lib) (cfg : Config) (db : DB) (env : ValidateEnv)
    (tokenString : String) (h : liveRow db tokenString env.queryNow) :
    ∃ e, ValidateToken lib cfg db env tokenString = .error e := by
  rw [ValidateToken_eq]
  cases parseStep lib cfg tokenString env.parseNow with
  | error e => exact ⟨e, rfl⟩
  | ok claims =>
    cases hf : env.queryFault with
    | some e => exact ⟨e, by simp [IsTokenBlacklisted_fault]⟩
    | none =>
      refine ⟨"token is blacklisted", ?_⟩
      simp [IsTokenBlacklisted_executes, h]

theorem Logout_success {lib : Lib} {cfg : Config} {env : LogoutEnv} {r : Request} {db db' : DB}
    {resp : Response}
    (hlogout : AuthController.Logout lib cfg env r db = (.wrote resp, db'))
    (hok : resp.status = 200) :
    ∃ userID claims expiresAt,
      GetUserIDFromContext r = (userID, none) ∧
      r.HeaderGetAuthorization ≠ "" ∧ hasPrefixStr r.HeaderGetAuthorization "Bearer " = true ∧
      ValidateToken lib cfg db env.validate r.bearer = .ok claims ∧
      claims.ExpiresAt = some expiresAt ∧
      TokenRepository.BlacklistToken db r.bearer userID expiresAt env.newID env.insertNow
        env.insertFault = .ok db' ∧
      resp = logoutResponse := by
  unfold AuthController.Logout at hlogout
  simp only [Request.bearer] at *
  rcases hctx : GetUserIDFromContext r with ⟨userID, err⟩
  rw [hctx] at hlogout
  cases err with
  | some e =>
    simp only [Prod.mk.injEq, Reply.wrote.injEq] at hlogout
    rw [← hlogout.1] at hok; simp [httpError] at hok
  | none =>
    simp only at hlogout
    split at hlogout
    · simp only [Prod.mk.injEq, Reply.wrote.injEq] at hlogout
      rw [← hlogout.1] at hok; simp [httpError] at hok
    · rename_i hhdr
      simp only [not_or, Bool.not_eq_false] at hhdr
      split at hlogout
      · simp only [Prod.mk.injEq, Reply.wrote.injEq] at hlogout
        rw [← hlogout.1] at hok; simp [httpError] at hok
      · rename_i claims hval
        split at hlogout
        · simp at hlogout
        · rename_i expiresAt hexp
          split at hlogout
          · simp only [Prod.mk.injEq, Reply.wrote.injEq] at hlogout
            rw [← hlogout.1] at hok; simp [httpError] at hok
          · rename_i db'' hins
            simp only [Prod.mk.injEq, Reply.wrote.injEq] at hlogout
            obtain ⟨h1, h2⟩ := hlogout
            subst h2
            exact ⟨userID, claims, expiresAt, rfl, hhdr.1, hhdr.2, hval, hexp, hins, h1.symm⟩

/-- C1. Whenever `AuthController.Logout` succeeds (status 200) for the bearer
token of a request, `ValidateToken` had accepted that token in the store before
the logout, the token carries an expiry, and in the store after the logout
`ValidateToken` on the same token string fails for every later reading whose
clock is still before that expiry (whatever the parse step and the store
report). -/
theorem logout_revokes_token (lib : Lib) (cfg : Config) (env : LogoutEnv) (r : Request)
    (db db' : DB) (resp : Response)
    (hlogout : AuthController.Logout lib cfg env r db = (.wrote resp, db'))
    (hok : resp.status = 200) :
    ∃ claims expiresAt,
      ValidateToken lib cfg db env.validate r.bearer = .ok claims ∧
      claims.ExpiresAt = some expiresAt ∧
      ∀ env' : ValidateEnv, env'.queryNow < expiresAt →
        ∃ e, ValidateToken lib cfg db' env' r.bearer = .error e := by
  obtain ⟨userID, claims, expiresAt, -, -, -, hval, hexp, hins, -⟩ := Logout_success hlogout hok
  refine ⟨claims, expiresAt, hval, hexp, fun env' ht => ?_⟩
  apply ValidateToken_fails_of_liveRow
  exact (liveRow_after_blacklist hins _ _).2 (Or.inr ⟨rfl, ht⟩)

/-- Worked instance of C1: logging out `T1` at time 10 succeeds, and `T1` is
rejected afterwards at every reading before its expiry 100. -/
theorem logout_revokes_token_witness :
    AuthController.Logout demoLib demoCfg (logoutAt 10 77) demoLogoutRequest demoDB
        = (.wrote logoutResponse, demoDBAfterLogout) ∧
      logoutResponse.status = 200 ∧
      ∃ claims expiresAt,
        ValidateToken demoLib demoCfg demoDB (logoutAt 10 77).validate demoLogoutRequest.bearer
          = .ok claims ∧
        claims.ExpiresAt = some expiresAt ∧
        ∀ env' : ValidateEnv, env'.queryNow < expiresAt →
          ∃ e, ValidateToken demoLib demoCfg demoDBAfterLogout env' demoLogoutRequest.bearer
            = .error e :=
  ⟨by decide, by decide,
    logout_revokes_token demoLib demoCfg (logoutAt 10 77) demoLogoutRequest demoDB
      demoDBAfterLogout logoutResponse (by decide) (by decide)⟩

/-! ## C5: what `ValidateToken` accepts -/

/-- C5. `ValidateToken` returns claims exactly when the parse step (parse,
type assertion, `token.Valid`) returns those claims and the blacklist query
answers `false` without error; the parse step succeeds exactly when
`jwt.ParseWithClaims` returns a valid token carrying the claims; and when the
parse step fails, `ValidateToken` returns that failure whatever the ledger
holds and whatever the query would report, so the ledger is not consulted. -/
theorem validateToken_iff_parse_and_not_blacklisted (lib : Lib) (cfg : Config) (db : DB)
    (env : ValidateEnv) (tokenString : String) :
    (∀ claims, ValidateToken lib cfg db env tokenString = .ok claims ↔
      (parseStep lib cfg tokenString env.parseNow = .ok claims ∧
        TokenRepository.IsTokenBlacklisted db tokenString env.queryNow env.queryFault
          = .ok false)) ∧
    (∀ claims, parseStep lib cfg tokenString env.parseNow = .ok claims ↔
      ∃ token, lib.ParseWithClaims tokenString (keyFunc cfg) env.parseNow = .ok token ∧
        token.Claims = some claims ∧ token.Valid = true) ∧
    (∀ e, parseStep lib cfg tokenString env.parseNow = .error e →
      ∀ (db2 : DB) (queryNow : Time) (queryFault : Option String),
        ValidateToken lib cfg db2
          { parseNow := env.parseNow, queryNow := queryNow, queryFault := queryFault }
          tokenString = .error e) := by
  refine ⟨fun claims => ?_, fun claims => ?_, fun e he db2 queryNow queryFault => ?_⟩
  · rw [ValidateToken_eq]
    cases parseStep lib cfg tokenString env.parseNow with
    | error e => simp
    | ok c =>
      cases TokenRepository.IsTokenBlacklisted db tokenString env.queryNow env.queryFault with
      | error e => simp
      | ok b => cases b <;> simp
  · unfold parseStep
    cases lib.ParseWithClaims tokenString (keyFunc cfg) env.parseNow with
    | error e => simp
    | ok token =>
      rcases token with ⟨c, v⟩
      cases c <;> cases v <;> simp
  · rw [ValidateToken_eq]
    simp only [he]

/-! ## C6: the revocation ledger -/

/-- C6. `IsTokenBlacklisted` returns `true` exactly when the query executes
and the ledger holds a row with exactly this token string and `expires_at`
strictly after `now`, and a query that executes returns `false` exactly when
there is no such row.  A second revocation of the same token with the same
expiry leaves every answer as after the first (and the answer for the token
stays `true` before the expiry); revoking `T` leaves the answer for every
other token string as it was. -/
theorem isTokenBlacklisted_spec (db : DB) (token : String) (now : Time) :
    (∀ fault, TokenRepository.IsTokenBlacklisted db token now fault = .ok true ↔
      (fault = none ∧ ∃ b ∈ db.blacklisted_tokens, b.Token = token ∧ b.ExpiresAt > now)) ∧
    (TokenRepository.IsTokenBlacklisted db token now none = .ok false ↔
      ¬ ∃ b ∈ db.blacklisted_tokens, b.Token = token ∧ b.ExpiresAt > now) ∧
    (∀ (userID userID2 : UUID) (expiresAt : Time) (id id2 : UUID) (t t2 : Time)
        (f f2 : Option String) (db1 db2 : DB),
      TokenRepository.BlacklistToken db token userID expiresAt id t f = .ok db1 →
      TokenRepository.BlacklistToken db1 token userID2 expiresAt id2 t2 f2 = .ok db2 →
      (∀ token' now' fault, TokenRepository.IsTokenBlacklisted db2 token' now' fault
          = TokenRepository.IsTokenBlacklisted db1 token' now' fault) ∧
      (now < expiresAt →
        TokenRepository.IsTokenBlacklisted db1 token now none = .ok true ∧
        TokenRepository.IsTokenBlacklisted db2 token now none = .ok true)) ∧
    (∀ (other : String) (userID : UUID) (expiresAt : Time) (id : UUID) (t : Time)
        (f : Option String) (db1 : DB),
      TokenRepository.BlacklistToken db other userID expiresAt id t f = .ok db1 →
      other ≠ token →
      ∀ fault, TokenRepository.IsTokenBlacklisted db1 token now fault
        = TokenRepository.IsTokenBlacklisted db token now fault) := by
  refine ⟨fun fault => ?_, ?_, ?_, ?_⟩
  · cases fault with
    | some e => simp [IsTokenBlacklisted_fault]
    | none => simp [IsTokenBlacklisted_executes, liveRow]
  · simp [IsTokenBlacklisted_executes, liveRow]
  · intro userID userID2 expiresAt id id2 t t2 f f2 db1 db2 h1 h2
    refine ⟨fun token' now' fault => ?_, fun hnow => ?_⟩
    · cases fault with
      | some e => rfl
      | none =>
        rw [IsTokenBlacklisted_executes, IsTokenBlacklisted_executes]
        congr 1
        rw [decide_eq_decide, liveRow_after_blacklist h2, liveRow_after_blacklist h1]
        tauto
    · rw [IsTokenBlacklisted_executes, IsTokenBlacklisted_executes]
      have l1 : liveRow db1 token now := (liveRow_after_blacklist h1 _ _).2 (Or.inr ⟨rfl, hnow⟩)
      have l2 : liveRow db2 token now := (liveRow_after_blacklist h2 _ _).2 (Or.inl l1)
      simp [l1, l2]
  · intro other userID expiresAt id t f db1 h1 hne fault
    cases fault with
    | some e => rfl
    | none =>
      rw [IsTokenBlacklisted_executes, IsTokenBlacklisted_executes]
      congr 1
      rw [decide_eq_decide, liveRow_after_blacklist h1]
      constructor
      · rintro (h | ⟨h, -⟩)
        · exact h
        · exact absurd h.symm hne
      · exact Or.inl

/-- Worked instance of C6: `T1` revoked once and twice in the demo store; the
answers agree for every token, are `true` for `T1` at time 50, and stay
`false` for `T2`. -/
theorem isTokenBlacklisted_spec_witness :
    ((∀ token' now' fault,
        TokenRepository.IsTokenBlacklisted demoDBAfterSecondLogout token' now' fault
          = TokenRepository.IsTokenBlacklisted demoDBAfterLogout token' now' fault) ∧
      ((50 : Time) < 100 →
        TokenRepository.IsTokenBlacklisted demoDBAfterLogout "T1" 50 none = .ok true ∧
        TokenRepository.IsTokenBlacklisted demoDBAfterSecondLogout "T1" 50 none = .ok true)) ∧
    (∀ fault, TokenRepository.IsTokenBlacklisted demoDBAfterLogout "T2" 50 fault
      = TokenRepository.IsTokenBlacklisted demoDB "T2" 50 fault) ∧
    TokenRepository.IsTokenBlacklisted demoDB "T2" 50 none = .ok false ∧
    TokenRepository.IsTokenBlacklisted demoDBAfterLogout "T1" 100 none = .ok false :=
  ⟨(isTokenBlacklisted_spec demoDB "T1" 50).2.2.1 1 1 100 77 78 10 20 none none
      demoDBAfterLogout demoDBAfterSecondLogout rfl rfl,
   (isTokenBlacklisted_spec demoDB "T2" 50).2.2.2 "T1" 1 100 77 10 none demoDBAfterLogout rfl
      (by decide),
   rfl, rfl⟩

/-! ## C3, C4, C10: the access gate -/

theorem hasPrefixStr_append (p t : String) : hasPrefixStr (p ++ t) p = true := by
  simp [hasPrefixStr, String.data_append]

theorem trimPrefixStr_append (p t : String) : trimPrefixStr (p ++ t) p = t := by
  simp [trimPrefixStr, hasPrefixStr_append, String.data_append]

theorem hasPrefixStr_empty : hasPrefixStr "" "Bearer " = false := by decide

theorem AuthMiddleware_of_error (lib : Lib) (cfg : Config) (env : ValidateEnv) (next : Handler)
    (r : Request) (db : DB) (e : String)
    (hpre : hasPrefixStr r.HeaderGetAuthorization "Bearer " = true)
    (hval : ValidateToken lib cfg db env r.bearer = .error e) :
    AuthMiddleware lib cfg env next r db
      = (.wrote (httpError "Invalid or expired token" 401), db) := by
  have hne : r.HeaderGetAuthorization ≠ "" := by
    intro h; rw [h, hasPrefixStr_empty] at hpre; exact Bool.noConfusion hpre
  simp only [Request.bearer] at hval
  simp [AuthMiddleware, hne, hpre, hval]

theorem AuthMiddleware_of_ok (lib : Lib) (cfg : Config) (env : ValidateEnv) (next : Handler)
    (r : Request) (db : DB) (claims : Claims)
    (hpre : hasPrefixStr r.HeaderGetAuthorization "Bearer " = true)
    (hval : ValidateToken lib cfg db env r.bearer = .ok claims) :
    AuthMiddleware lib cfg env next r db = next (r.WithValue "userID" claims.UserID) db := by
  have hne : r.HeaderGetAuthorization ≠ "" := by
    intro h; rw [h, hasPrefixStr_empty] at hpre; exact Bool.noConfusion hpre
  simp only [Request.bearer] at hval
  simp [AuthMiddleware, hne, hpre, hval]

/-- C3. If the `Authorization` header is absent, or does not start with
`Bearer `, or carries a token that `ValidateToken` rejects, `AuthMiddleware`
answers with status 401 and leaves the store as it was, and this same answer
is produced whatever the wrapped handler is: the handler is not invoked. -/
theorem authMiddleware_rejects (lib : Lib) (cfg : Config) (env : ValidateEnv) (r : Request)
    (db : DB)
    (h : r.Authorization = none ∨
      hasPrefixStr r.HeaderGetAuthorization "Bearer " = false ∨
      ∃ e, ValidateToken lib cfg db env r.bearer = .error e) :
    ∃ msg, ∀ next : Handler,
      AuthMiddleware lib cfg env next r db = (.wrote (httpError msg 401), db) ∧
      (httpError msg 401).status = 401 := by
  by_cases hempty : r.HeaderGetAuthorization = ""
  · exact ⟨"Authorization header is required", fun next =>
      ⟨by simp [AuthMiddleware, hempty], rfl⟩⟩
  · by_cases hpre : hasPrefixStr r.HeaderGetAuthorization "Bearer " = true
    · rcases h with h | h | ⟨e, he⟩
      · exact absurd (by simp [Request.HeaderGetAuthorization, h]) hempty
      · rw [hpre] at h; exact Bool.noConfusion h
      · exact ⟨"Invalid or expired token", fun next =>
          ⟨AuthMiddleware_of_error lib cfg env next r db e hpre he, rfl⟩⟩
    · exact ⟨"Invalid authorization format", fun next =>
        ⟨by simp [AuthMiddleware, hempty, hpre], rfl⟩⟩

/-- Worked instances of C3: no header, a header without the `Bearer ` scheme,
and the revoked token `T1`; the wrapped handler would have answered 200. -/
theorem authMiddleware_rejects_witness :
    (∃ msg, ∀ next : Handler,
      AuthMiddleware demoLib demoCfg (validateAt 10) next
          { Authorization := none, Vars := [], Body := "", Context := [] } demoDB
        = (.wrote (httpError msg 401), demoDB) ∧ (httpError msg 401).status = 401) ∧
    (∃ msg, ∀ next : Handler,
      AuthMiddleware demoLib demoCfg (validateAt 10) next (bearerRequest "Basic T1") demoDB
        = (.wrote (httpError msg 401), demoDB) ∧ (httpError msg 401).status = 401) ∧
    (∃ msg, ∀ next : Handler,
      AuthMiddleware demoLib demoCfg (validateAt 10) next (bearerRequest "Bearer T1")
          demoDBAfterLogout
        = (.wrote (httpError msg 401), demoDBAfterLogout) ∧ (httpError msg 401).status = 401) :=
  ⟨authMiddleware_rejects demoLib demoCfg (validateAt 10) _ demoDB (Or.inl rfl),
   authMiddleware_rejects demoLib demoCfg (validateAt 10) (bearerRequest "Basic T1") demoDB
     (Or.inr (Or.inl (by decide))),
   authMiddleware_rejects demoLib demoCfg (validateAt 10) (bearerRequest "Bearer T1")
     demoDBAfterLogout (Or.inr (Or.inr ⟨"token is blacklisted", rfl⟩))⟩

/-- C4. On a request whose header is `Bearer ` followed by a token that
`ValidateToken` accepts, `AuthMiddleware` yields exactly what one call of the
wrapped handler yields on the unchanged store and on the request extended with
the identity, and on that request `GetUserIDFromContext` returns the token's
`user_id` claim and no error.  On any request whose context holds no `userID`
value (nothing but `AuthMiddleware` attaches one) `GetUserIDFromContext`
returns the nil id and an error. -/
theorem authMiddleware_forwards (lib : Lib) (cfg : Config) (env : ValidateEnv) (next : Handler)
    (r : Request) (db : DB) (tokenString : String) (claims : Claims)
    (hhdr : r.Authorization = some ("Bearer " ++ tokenString))
    (hval : ValidateToken lib cfg db env tokenString = .ok claims) :
    AuthMiddleware lib cfg env next r db = next (r.WithValue "userID" claims.UserID) db ∧
    GetUserIDFromContext (r.WithValue "userID" claims.UserID) = (claims.UserID, none) ∧
    ∀ r' : Request, r'.Value "userID" = none →
      ∃ err, GetUserIDFromContext r' = (uuidNil, some err) := by
  have hget : r.HeaderGetAuthorization = "Bearer " ++ tokenString := by
    simp [Request.HeaderGetAuthorization, hhdr]
  refine ⟨?_, ?_, fun r' h' => ?_⟩
  · apply AuthMiddleware_of_ok
    · rw [hget]; exact hasPrefixStr_append _ _
    · rw [Request.bearer, hget, trimPrefixStr_append]; exact hval
  · simp [GetUserIDFromContext, Request.Value, Request.WithValue, List.lookup]
  · exact ⟨"user ID not found in context", by simp [GetUserIDFromContext, h']⟩

/-- Worked instance of C4: bearer `T1` at time 10 is forwarded with identity 1
to a handler that echoes the identity it finds; a fresh request has none. -/
theorem authMiddleware_forwards_witness :
    (AuthMiddleware demoLib demoCfg (validateAt 10)
        (fun r db => (.wrote (httpError (toString (GetUserIDFromContext r).1) 200), db))
        (bearerRequest "Bearer T1") demoDB
      = (fun (r : Request) (db : DB) =>
          ((.wrote (httpError (toString (GetUserIDFromContext r).1) 200), db) : Reply × DB))
          ((bearerRequest "Bearer T1").WithValue "userID" 1) demoDB) ∧
    GetUserIDFromContext ((bearerRequest "Bearer T1").WithValue "userID" 1) = (1, none) ∧
    ∀ r' : Request, r'.Value "userID" = none →
      ∃ err, GetUserIDFromContext r' = (uuidNil, some err) :=
  authMiddleware_forwards demoLib demoCfg (validateAt 10) _ (bearerRequest "Bearer T1") demoDB
    "T1" { UserID := 1, ExpiresAt := some 100, IssuedAt := some 0, Subject := "1" } rfl rfl

/-- C10. Two requests with a `Bearer ` header whose tokens `ValidateToken`
rejects, for whatever reasons, in whatever stores and at whatever times,
receive the same response from `AuthMiddleware`: status 401 with the one fixed
body. -/
theorem authMiddleware_rejection_uniform (lib : Lib) (cfg : Config) (env1 env2 : ValidateEnv)
    (next1 next2 : Handler) (r1 r2 : Request) (db1 db2 : DB) (e1 e2 : String)
    (hpre1 : hasPrefixStr r1.HeaderGetAuthorization "Bearer " = true)
    (hpre2 : hasPrefixStr r2.HeaderGetAuthorization "Bearer " = true)
    (hval1 : ValidateToken lib cfg db1 env1 r1.bearer = .error e1)
    (hval2 : ValidateToken lib cfg db2 env2 r2.bearer = .error e2) :
    (AuthMiddleware lib cfg env1 next1 r1 db1).1 = (AuthMiddleware lib cfg env2 next2 r2 db2).1 ∧
    (AuthMiddleware lib cfg env1 next1 r1 db1).1
      = .wrote (httpError "Invalid or expired token" 401) := by
  rw [AuthMiddleware_of_error lib cfg env1 next1 r1 db1 e1 hpre1 hval1,
    AuthMiddleware_of_error lib cfg env2 next2 r2 db2 e2 hpre2 hval2]
  exact ⟨rfl, rfl⟩

/-- Worked instance of C10: the revoked token `T1` and a malformed token. -/
theorem authMiddleware_rejection_uniform_witness :
    ValidateToken demoLib demoCfg demoDBAfterLogout (validateAt 10)
        (bearerRequest "Bearer T1").bearer = .error "token is blacklisted" ∧
    ValidateToken demoLib demoCfg demoDB (validateAt 10)
        (bearerRequest "Bearer garbage").bearer = .error "token is malformed" ∧
    (AuthMiddleware demoLib demoCfg (validateAt 10) (fun _ db => (.panicked, db))
        (bearerRequest "Bearer T1") demoDBAfterLogout).1
      = (AuthMiddleware demoLib demoCfg (validateAt 10) (fun _ db => (.panicked, db))
        (bearerRequest "Bearer garbage") demoDB).1 ∧
    (AuthMiddleware demoLib demoCfg (validateAt 10) (fun _ db => (.panicked, db))
        (bearerRequest "Bearer T1") demoDBAfterLogout).1
      = .wrote (httpError "Invalid or expired token" 401) :=
  ⟨rfl, rfl,
    authMiddleware_rejection_uniform demoLib demoCfg (validateAt 10) (validateAt 10)
      (fun _ db => (.panicked, db)) (fun _ db => (.panicked, db))
      (bearerRequest "Bearer T1") (bearerRequest "Bearer garbage") demoDBAfterLogout demoDB
      "token is blacklisted" "token is malformed" (by decide) (by decide) rfl rfl⟩

/-! ## C2: ownership -/

theorem find_todo_of_unique {db : DB} {t : Todo} (ht : t ∈ db.todos)
    (huniq : ∀ t' ∈ db.todos, t'.ID = t.ID → t' = t) :
    db.todos.find? (fun x => x.ID == t.ID) = some t := by
  cases h : db.todos.find? (fun x => x.ID == t.ID) with
  | none =>
    rw [List.find?_eq_none] at h
    exact absurd (by simp) (h t ht)
  | some t' =>
    have h1 := List.find?_some h
    have h2 := List.mem_of_find?_eq_some h
    rw [huniq t' h2 (by simpa using h1)]

theorem no_hit_of_other_owner {db : DB} {t : Todo} {B : UUID}
    (huniq : ∀ t' ∈ db.todos, t'.ID = t.ID → t' = t) (hne : t.UserID ≠ B) :
    ∀ x ∈ db.todos, (x.ID == t.ID && x.UserID == B) = false := by
  intro x hx
  by_cases hid : x.ID = t.ID
  · have := huniq x hx hid
    subst this
    simp [hne]
  · simp [hid]

theorem other_user_replies (lib : Lib) (r : Request) (db : DB) (t : Todo) (B : UUID)
    (ht : t ∈ db.todos)
    (huniq : ∀ t' ∈ db.todos, t'.ID = t.ID → t' = t)
    (hne : t.UserID ≠ B)
    (hctx : GetUserIDFromContext r = (B, none))
    (hid : lib.uuidParse (r.Var "id") = some t.ID) :
    (∀ fault, TodoController.GetByID lib fault r db
      = (.wrote (match fault with
          | none => httpError "Unauthorized" 401
          | some _ => httpError "Todo not found" 404), db)) ∧
    (∀ env, TodoController.Update lib env r db
      = (.wrote (match env.lookupFault with
          | none => httpError "Unauthorized" 401
          | some _ => httpError "Todo not found" 404), db)) ∧
    (∀ env, TodoController.Delete lib env r db
      = (.wrote (httpError "Failed to delete todo" 500), db)) := by
  have hfind := find_todo_of_unique ht huniq
  have hmiss := no_hit_of_other_owner huniq hne
  refine ⟨fun fault => ?_, fun env => ?_, fun env => ?_⟩
  · cases fault with
    | some e => simp [TodoController.GetByID, hctx, hid, TodoRepository.GetByID]
    | none => simp [TodoController.GetByID, hctx, hid, TodoRepository.GetByID, hfind, hne]
  · cases hf : env.lookupFault with
    | some e => simp [TodoController.Update, hctx, hid, TodoRepository.GetByID, hf]
    | none => simp [TodoController.Update, hctx, hid, TodoRepository.GetByID, hf, hfind, hne]
  · have hkeep : db.todos.filter (fun x => !(x.ID == t.ID && x.UserID == B)) = db.todos := by
      rw [List.filter_eq_self]
      intro x hx
      rw [hmiss x hx]; rfl
    have hnone : db.todos.filter (fun x => x.ID == t.ID && x.UserID == B) = [] := by
      rw [List.filter_eq_nil_iff]
      intro x hx
      rw [hmiss x hx]; exact Bool.false_ne_true
    have hdb : ({ db with todos := db.todos } : DB) = db := rfl
    unfold TodoController.Delete
    rw [hctx]
    simp only [hid, TodoRepository.Delete]
    cases env.execFault with
    | some e => rfl
    | none =>
      simp only [hkeep, hnone, hdb]
      cases env.rowsFault with
      | some e => rfl
      | none => rfl

/-- C2. Let `t` be a stored todo, the only row with its id (primary key),
owned by a user other than the caller `B` attached to the request context, and
let the route variable parse to the id of `t`.  Then `GetByID` and `Update`
answer exactly 401 with the fixed text `Unauthorized` when the lookup executes
and exactly 404 with the fixed text `Todo not found` when it reports a storage
error, `Delete` answers exactly 500 with the fixed text
`Failed to delete todo`, and each leaves the whole store, the row `t`
included, exactly as it was.  Nothing of the todo is returned: the three
replies are the same for every store and every such todo under that id,
whatever its title, description, flag and timestamps. -/
theorem todo_unreachable_for_other_user (lib : Lib) (r : Request) (db : DB) (t : Todo) (B : UUID)
    (ht : t ∈ db.todos)
    (huniq : ∀ t' ∈ db.todos, t'.ID = t.ID → t' = t)
    (hne : t.UserID ≠ B)
    (hctx : GetUserIDFromContext r = (B, none))
    (hid : lib.uuidParse (r.Var "id") = some t.ID) :
    TodoController.GetByID lib none r db = (.wrote (httpError "Unauthorized" 401), db) ∧
    (∀ e, TodoController.GetByID lib (some e) r db
      = (.wrote (httpError "Todo not found" 404), db)) ∧
    (∀ env : UpdateEnv, env.lookupFault = none →
      TodoController.Update lib env r db = (.wrote (httpError "Unauthorized" 401), db)) ∧
    (∀ (env : UpdateEnv) (e : String), env.lookupFault = some e →
      TodoController.Update lib env r db = (.wrote (httpError "Todo not found" 404), db)) ∧
    (∀ env, TodoController.Delete lib env r db
      = (.wrote (httpError "Failed to delete todo" 500), db)) ∧
    (∀ (db2 : DB) (t2 : Todo), t2 ∈ db2.todos →
      (∀ t' ∈ db2.todos, t'.ID = t2.ID → t' = t2) → t2.UserID ≠ B → t2.ID = t.ID →
      (∀ fault, (TodoController.GetByID lib fault r db2).1
        = (TodoController.GetByID lib fault r db).1) ∧
      (∀ env, (TodoController.Update lib env r db2).1
        = (TodoController.Update lib env r db).1) ∧
      (∀ env, (TodoController.Delete lib env r db2).1
        = (TodoController.Delete lib env r db).1)) := by
  obtain ⟨hget, hupd, hdel⟩ := other_user_replies lib r db t B ht huniq hne hctx hid
  refine ⟨hget none, fun e => hget (some e), fun env hf => ?_, fun env e hf => ?_, hdel, ?_⟩
  · rw [hupd env, hf]
  · rw [hupd env, hf]
  · intro db2 t2 ht2 huniq2 hne2 hid2
    obtain ⟨hget2, hupd2, hdel2⟩ :=
      other_user_replies lib r db2 t2 B ht2 huniq2 hne2 hctx (by rw [hid2]; exact hid)
    refine ⟨fun fault => ?_, fun env => ?_, fun env => ?_⟩
    · rw [hget2 fault, hget fault]
    · rw [hupd2 env, hupd env]
    · rw [hdel2 env, hdel env]

/-- Worked instance of C2: the request of user 2 (bob) for todo 11, which
belongs to user 1 (alice); the replies are those bob gets when todo 11 holds
`secret plan` instead. -/
theorem todo_unreachable_for_other_user_witness :
    TodoController.GetByID demoLib none bobRequest demoDB
      = (.wrote (httpError "Unauthorized" 401), demoDB) ∧
    (∀ e, TodoController.GetByID demoLib (some e) bobRequest demoDB
      = (.wrote (httpError "Todo not found" 404), demoDB)) ∧
    (∀ env : UpdateEnv, env.lookupFault = none →
      TodoController.Update demoLib env bobRequest demoDB
        = (.wrote (httpError "Unauthorized" 401), demoDB)) ∧
    (∀ (env : UpdateEnv) (e : String), env.lookupFault = some e →
      TodoController.Update demoLib env bobRequest demoDB
        = (.wrote (httpError "Todo not found" 404), demoDB)) ∧
    (∀ env, TodoController.Delete demoLib env bobRequest demoDB
      = (.wrote (httpError "Failed to delete todo" 500), demoDB)) ∧
    (∀ fault, (TodoController.GetByID demoLib fault bobRequest demoDBOtherContents).1
        = (TodoController.GetByID demoLib fault bobRequest demoDB).1) ∧
    (∀ env, (TodoController.Update demoLib env bobRequest demoDBOtherContents).1
        = (TodoController.Update demoLib env bobRequest demoDB).1) ∧
    (∀ env, (TodoController.Delete demoLib env bobRequest demoDBOtherContents).1
        = (TodoController.Delete demoLib env bobRequest demoDB).1) :=
  have h := todo_unreachable_for_other_user demoLib bobRequest demoDB aliceTodo 2
    (by decide) (by decide) (by decide) (by decide) (by decide)
  ⟨h.1, h.2.1, h.2.2.1, h.2.2.2.1, h.2.2.2.2.1,
    h.2.2.2.2.2 demoDBOtherContents secretTodo (by decide) (by decide) (by decide) (by decide)⟩

/-! ## C7: registration with a stored email -/

theorem GetByEmail_of_stored {db : DB} {email : String} (h : ∃ u ∈ db.users, u.Email = email) :
    ∃ u, u ∈ db.users ∧ u.Email = email ∧ UserRepository.GetByEmail db email none = .ok u := by
  obtain ⟨u, hu, he⟩ := h
  cases hf : db.users.find? (fun u => u.Email == email) with
  | none =>
    rw [List.find?_eq_none] at hf
    exact absurd (by simpa using he) (hf u hu)
  | some u' =>
    refine ⟨u', List.mem_of_find?_eq_some hf, by simpa using List.find?_some hf, ?_⟩
    simp [UserRepository.GetByEmail, hf]

theorem Create_refused_of_stored (lib : Lib) (db : DB) (env : CreateUserEnv) (user : User)
    (h : ∃ u ∈ db.users, u.Email = user.Email) :
    ∃ e, UserRepository.Create lib db env user = .error e := by
  unfold UserRepository.Create
  cases lib.GenerateFromPassword user.Password env.salt with
  | error e => exact ⟨e, rfl⟩
  | ok hashed =>
    cases env.fault with
    | some e => exact ⟨e, rfl⟩
    | none =>
      simp only
      split
      · exact ⟨_, rfl⟩
      · split
        · exact ⟨_, rfl⟩
        · rename_i hno
          obtain ⟨u, hu, he⟩ := h
          exact absurd (List.any_eq_true.2 ⟨u, hu, by simpa using he⟩) hno

/-- C7. A registration request that decodes to non-empty username, email and
password, with an email some stored user already has: when the email lookup
executes, `Register` answers 409 with the duplicate-email message, the store
is unchanged and the body is the error text, not a token.  Whatever the store
reports (also when the lookup itself fails), the answer is an error response
(409 or 500), no user row is added and no token is returned. -/
theorem register_duplicate_email (lib : Lib) (cfg : Config) (env : RegisterEnv) (r : Request)
    (db : DB) (req : RegisterRequest)
    (hbody : lib.decodeRegister r.Body = some req)
    (hfields : req.Username ≠ "" ∧ req.Email ≠ "" ∧ req.Password ≠ "")
    (hdup : ∃ u ∈ db.users, u.Email = req.Email) :
    (env.lookupFault = none →
      AuthController.Register lib cfg env r db
        = (.wrote (httpError "User with this email already exists" 409), db)) ∧
    (∃ msg code, (code = 409 ∨ code = 500) ∧
      AuthController.Register lib cfg env r db = (.wrote (httpError msg code), db)) ∧
    (∀ msg code token, httpError msg code ≠ tokenResponse token) := by
  obtain ⟨h1, h2, h3⟩ := hfields
  have hconflict : env.lookupFault = none →
      AuthController.Register lib cfg env r db
        = (.wrote (httpError "User with this email already exists" 409), db) := by
    intro hf
    obtain ⟨u, -, -, hget⟩ := GetByEmail_of_stored hdup
    simp [AuthController.Register, hbody, h1, h2, h3, hf, hget]
  refine ⟨hconflict, ?_, ?_⟩
  · cases hf : env.lookupFault with
    | none => exact ⟨_, 409, Or.inl rfl, hconflict hf⟩
    | some e =>
      obtain ⟨e', he'⟩ := Create_refused_of_stored lib db env.create
        { ID := uuidNil, Username := req.Username, Email := req.Email,
          Password := req.Password, CreatedAt := 0, UpdatedAt := 0 } hdup
      exact ⟨"Failed to create user", 500, Or.inr rfl, by
        simp [AuthController.Register, hbody, h1, h2, h3, hf, UserRepository.GetByEmail, he']⟩
  · intro msg code token h
    simp [httpError, tokenResponse] at h

/-- Worked instance of C7: alice registers again with her stored email. -/
theorem register_duplicate_email_witness :
    ((registerAt 10 3).lookupFault = none →
      AuthController.Register demoLib demoCfg (registerAt 10 3) (bodyRequest "register alice")
          demoDB
        = (.wrote (httpError "User with this email already exists" 409), demoDB)) ∧
    (∃ msg code, (code = 409 ∨ code = 500) ∧
      AuthController.Register demoLib demoCfg (registerAt 10 3) (bodyRequest "register alice")
          demoDB = (.wrote (httpError msg code), demoDB)) ∧
    (∀ msg code token, httpError msg code ≠ tokenResponse token) :=
  register_duplicate_email demoLib demoCfg (registerAt 10 3) (bodyRequest "register alice")
    demoDB { Username := "alice", Email := "alice@x.com", Password := "pw123" }
    rfl (by decide) (by decide)

/-! ## C8: login failures look alike -/

theorem Login_of_verify_error (lib : Lib) (cfg : Config) (env : LoginEnv) (r : Request) (db : DB)
    (req : LoginRequest) (e : String)
    (hbody : lib.decodeLogin r.Body = some req)
    (hfields : req.Email ≠ "" ∧ req.Password ≠ "")
    (hver : UserRepository.VerifyPassword lib db req.Email req.Password env.lookupFault
      = .error e) :
    AuthController.Login lib cfg env r db = (.wrote (httpError "Invalid credentials" 401), db) := by
  simp [AuthController.Login, hbody, hfields.1, hfields.2, hver]

theorem VerifyPassword_unknown_email (lib : Lib) (db : DB) (email password : String)
    (fault : Option String) (h : ∀ u ∈ db.users, u.Email ≠ email) :
    ∃ e, UserRepository.VerifyPassword lib db email password fault = .error e := by
  cases fault with
  | some e => exact ⟨e, rfl⟩
  | none =>
    have hf : db.users.find? (fun u => u.Email == email) = none := by
      rw [List.find?_eq_none]
      intro u hu
      simpa using h u hu
    exact ⟨"user not found", by simp [UserRepository.VerifyPassword, UserRepository.GetByEmail, hf]⟩

theorem VerifyPassword_wrong_password (lib : Lib) (db : DB) (email password : String)
    (fault : Option String)
    (h : ∀ u ∈ db.users, u.Email = email → lib.CompareHashAndPassword u.Password password = false) :
    ∃ e, UserRepository.VerifyPassword lib db email password fault = .error e := by
  cases fault with
  | some e => exact ⟨e, rfl⟩
  | none =>
    cases hf : db.users.find? (fun u => u.Email == email) with
    | none =>
      exact ⟨"user not found", by
        simp [UserRepository.VerifyPassword, UserRepository.GetByEmail, hf]⟩
    | some u =>
      have hm := h u (List.mem_of_find?_eq_some hf) (by simpa using List.find?_some hf)
      exact ⟨"invalid password", by
        simp [UserRepository.VerifyPassword, UserRepository.GetByEmail, hf, hm]⟩

/-- C8. Two login requests with non-empty email and password, the first with
an email no stored user has, the second with an email whose stored user has a
hash that does not match the password: `Login` gives both the same response,
status 401 with the one body `Invalid credentials`, leaves the store
unchanged, and that response carries no token.  This holds whatever the store
reports for the lookups. -/
theorem login_failures_indistinguishable (lib : Lib) (cfg : Config) (env1 env2 : LoginEnv)
    (r1 r2 : Request) (db : DB) (req1 req2 : LoginRequest)
    (hbody1 : lib.decodeLogin r1.Body = some req1)
    (hbody2 : lib.decodeLogin r2.Body = some req2)
    (hfields1 : req1.Email ≠ "" ∧ req1.Password ≠ "")
    (hfields2 : req2.Email ≠ "" ∧ req2.Password ≠ "")
    (hunknown : ∀ u ∈ db.users, u.Email ≠ req1.Email)
    (hwrong : ∀ u ∈ db.users, u.Email = req2.Email →
      lib.CompareHashAndPassword u.Password req2.Password = false) :
    AuthController.Login lib cfg env1 r1 db = AuthController.Login lib cfg env2 r2 db ∧
    AuthController.Login lib cfg env1 r1 db
      = (.wrote (httpError "Invalid credentials" 401), db) ∧
    (httpError "Invalid credentials" 401).status = 401 ∧
    (∀ token, httpError "Invalid credentials" 401 ≠ tokenResponse token) := by
  obtain ⟨e1, he1⟩ :=
    VerifyPassword_unknown_email lib db req1.Email req1.Password env1.lookupFault hunknown
  obtain ⟨e2, he2⟩ :=
    VerifyPassword_wrong_password lib db req2.Email req2.Password env2.lookupFault hwrong
  rw [Login_of_verify_error lib cfg env1 r1 db req1 e1 hbody1 hfields1 he1,
    Login_of_verify_error lib cfg env2 r2 db req2 e2 hbody2 hfields2 he2]
  refine ⟨rfl, rfl, rfl, fun token h => ?_⟩
  simp [httpError, tokenResponse] at h

/-- Worked instance of C8: an unknown email against alice with a wrong password. -/
theorem login_failures_indistinguishable_witness :
    AuthController.Login demoLib demoCfg (loginAt 10) (bodyRequest "login nobody") demoDB
      = AuthController.Login demoLib demoCfg (loginAt 10) (bodyRequest "login alice wrong")
          demoDB ∧
    AuthController.Login demoLib demoCfg (loginAt 10) (bodyRequest "login nobody") demoDB
      = (.wrote (httpError "Invalid credentials" 401), demoDB) ∧
    (httpError "Invalid credentials" 401).status = 401 ∧
    (∀ token, httpError "Invalid credentials" 401 ≠ tokenResponse token) :=
  login_failures_indistinguishable demoLib demoCfg (loginAt 10) (loginAt 10)
    (bodyRequest "login nobody") (bodyRequest "login alice wrong") demoDB
    { Email := "nobody@x.com", Password := "pw123" } { Email := "alice@x.com", Password := "wrong" }
    rfl rfl (by decide) (by decide) (by decide) (by decide)

/-! ## C9: logout behind the access gate -/

theorem Logout_of_error (lib : Lib) (cfg : Config) (env : LogoutEnv) (r : Request) (db : DB)
    (userID : UUID) (e : String)
    (hctx : GetUserIDFromContext r = (userID, none))
    (hpre : hasPrefixStr r.HeaderGetAuthorization "Bearer " = true)
    (hval : ValidateToken lib cfg db env.validate r.bearer = .error e) :
    AuthController.Logout lib cfg env r db = (.wrote (httpError "Invalid token" 401), db) := by
  have hne : r.HeaderGetAuthorization ≠ "" := by
    intro h; rw [h, hasPrefixStr_empty] at hpre; exact Bool.noConfusion hpre
  simp only [Request.bearer] at hval
  unfold AuthController.Logout
  rw [hctx]
  simp [hne, hpre, hval]

theorem Logout_of_insert (lib : Lib) (cfg : Config) (env : LogoutEnv) (r : Request) (db db' : DB)
    (userID : UUID) (claims : Claims) (expiresAt : Time)
    (hctx : GetUserIDFromContext r = (userID, none))
    (hpre : hasPrefixStr r.HeaderGetAuthorization "Bearer " = true)
    (hval : ValidateToken lib cfg db env.validate r.bearer = .ok claims)
    (hexp : claims.ExpiresAt = some expiresAt)
    (hins : TokenRepository.BlacklistToken db r.bearer userID expiresAt env.newID env.insertNow
      env.insertFault = .ok db') :
    AuthController.Logout lib cfg env r db = (.wrote logoutResponse, db') := by
  have hne : r.HeaderGetAuthorization ≠ "" := by
    intro h; rw [h, hasPrefixStr_empty] at hpre; exact Bool.noConfusion hpre
  simp only [Request.bearer] at hval hins
  unfold AuthController.Logout
  rw [hctx]
  simp [hne, hpre, hval, hexp, hins]

theorem context_after_gate (r : Request) (userID : UUID) :
    GetUserIDFromContext (r.WithValue "userID" userID) = (userID, none) ∧
    (r.WithValue "userID" userID).HeaderGetAuthorization = r.HeaderGetAuthorization ∧
    (r.WithValue "userID" userID).bearer = r.bearer := by
  simp [GetUserIDFromContext, Request.Value, Request.WithValue, List.lookup,
    Request.HeaderGetAuthorization, Request.bearer]

/-- C9. For a request with a `Bearer ` header served by `Logout` behind
`AuthMiddleware`: if `ValidateToken` rejects the bearer token at the gate, or
accepts it there and rejects it inside `Logout`, the answer is a 401 error and
the store, the ledger included, is unchanged; if both validations accept, the
token carries an expiry and the insert is accepted by the store, the answer is
the 200 logout response and the new store is the old one with exactly one
ledger row appended, whose token is the bearer string, whose user id is the
`user_id` claim the gate attached, and whose `expires_at` is the token's
expiry claim. -/
theorem logout_behind_gate (lib : Lib) (cfg : Config) (gate : ValidateEnv) (env : LogoutEnv)
    (r : Request) (db : DB)
    (hpre : hasPrefixStr r.HeaderGetAuthorization "Bearer " = true) :
    (∀ e, ValidateToken lib cfg db gate r.bearer = .error e →
      AuthMiddleware lib cfg gate (AuthController.Logout lib cfg env) r db
        = (.wrote (httpError "Invalid or expired token" 401), db)) ∧
    (∀ c e, ValidateToken lib cfg db gate r.bearer = .ok c →
      ValidateToken lib cfg db env.validate r.bearer = .error e →
      AuthMiddleware lib cfg gate (AuthController.Logout lib cfg env) r db
        = (.wrote (httpError "Invalid token" 401), db)) ∧
    (∀ c1 c2 expiresAt db',
      ValidateToken lib cfg db gate r.bearer = .ok c1 →
      ValidateToken lib cfg db env.validate r.bearer = .ok c2 →
      c2.ExpiresAt = some expiresAt →
      TokenRepository.BlacklistToken db r.bearer c1.UserID expiresAt env.newID env.insertNow
        env.insertFault = .ok db' →
      AuthMiddleware lib cfg gate (AuthController.Logout lib cfg env) r db
        = (.wrote logoutResponse, db') ∧
      logoutResponse.status = 200 ∧
      db'.users = db.users ∧ db'.todos = db.todos ∧
      db'.blacklisted_tokens = db.blacklisted_tokens ++
        [{ ID := env.newID, Token := r.bearer, UserID := c1.UserID, ExpiresAt := expiresAt,
           CreatedAt := env.insertNow }]) := by
  refine ⟨fun e he => ?_, fun c e hc he => ?_, fun c1 c2 expiresAt db' h1 h2 hexp hins => ?_⟩
  · exact AuthMiddleware_of_error lib cfg gate _ r db e hpre he
  · rw [AuthMiddleware_of_ok lib cfg gate _ r db c hpre hc]
    obtain ⟨hctx, hhdr, hb⟩ := context_after_gate r c.UserID
    exact Logout_of_error lib cfg env _ db c.UserID e hctx (by rw [hhdr]; exact hpre)
      (by rw [hb]; exact he)
  · rw [AuthMiddleware_of_ok lib cfg gate _ r db c1 hpre h1]
    obtain ⟨hctx, hhdr, hb⟩ := context_after_gate r c1.UserID
    refine ⟨?_, rfl, ?_⟩
    · exact Logout_of_insert lib cfg env _ db db' c1.UserID c2 expiresAt hctx
        (by rw [hhdr]; exact hpre) (by rw [hb]; exact h2) hexp (by rw [hb]; exact hins)
    · rw [BlacklistToken_ok hins]
      exact ⟨rfl, rfl, rfl⟩

/-- Worked instance of C9: `Bearer T1` at time 10 is logged out and the row
`demoRow` is appended; the same request on the store after the logout is
rejected at the gate. -/
theorem logout_behind_gate_witness :
    (AuthMiddleware demoLib demoCfg (validateAt 10)
        (AuthController.Logout demoLib demoCfg (logoutAt 10 77)) (bearerRequest "Bearer T1") demoDB
      = (.wrote logoutResponse, demoDBAfterLogout) ∧
      logoutResponse.status = 200 ∧
      demoDBAfterLogout.users = demoDB.users ∧ demoDBAfterLogout.todos = demoDB.todos ∧
      demoDBAfterLogout.blacklisted_tokens = demoDB.blacklisted_tokens ++
        [{ ID := 77, Token := (bearerRequest "Bearer T1").bearer, UserID := 1, ExpiresAt := 100,
           CreatedAt := 10 }]) ∧
    AuthMiddleware demoLib demoCfg (validateAt 10)
        (AuthController.Logout demoLib demoCfg (logoutAt 10 78)) (bearerRequest "Bearer T1")
        demoDBAfterLogout
      = (.wrote (httpError "Invalid or expired token" 401), demoDBAfterLogout) :=
  ⟨(logout_behind_gate demoLib demoCfg (validateAt 10) (logoutAt 10 77)
      (bearerRequest "Bearer T1") demoDB (by decide)).2.2
      { UserID := 1, ExpiresAt := some 100, IssuedAt := some 0, Subject := "1" }
      { UserID := 1, ExpiresAt := some 100, IssuedAt := some 0, Subject := "1" }
      100 demoDBAfterLogout rfl rfl rfl rfl,
   (logout_behind_gate demoLib demoCfg (validateAt 10) (logoutAt 10 78)
      (bearerRequest "Bearer T1") demoDBAfterLogout (by decide)).1 "token is blacklisted" rfl⟩

/-! ## C11: no way back to valid -/

theorem parseStep_of_ValidateToken {lib : Lib} {cfg : Config} {db : DB} {env : ValidateEnv}
    {tokenString : String} {claims : Claims}
    (h : ValidateToken lib cfg db env tokenString = .ok claims) :
    parseStep lib cfg tokenString env.parseNow = .ok claims := by
  rw [ValidateToken_eq] at h
  cases hp : parseStep lib cfg tokenString env.parseNow with
  | error e => rw [hp] at h; simp at h
  | ok c =>
    rw [hp] at h
    cases hq : TokenRepository.IsTokenBlacklisted db tokenString env.queryNow env.queryFault with
    | error e => rw [hq] at h; simp at h
    | ok b =>
      rw [hq] at h
      cases b with
      | true => simp at h
      | false => simpa using h

theorem ValidateToken_fails_of_parse {lib : Lib} {cfg : Config} (db : DB) (env : ValidateEnv)
    (tokenString : String) (h : ∀ c, parseStep lib cfg tokenString env.parseNow ≠ .ok c) :
    ∃ e, ValidateToken lib cfg db env tokenString = .error e := by
  rw [ValidateToken_eq]
  cases hp : parseStep lib cfg tokenString env.parseNow with
  | error e => exact ⟨e, rfl⟩
  | ok c => exact absurd hp (h c)

theorem Expired_rejected {lib : Lib} {cfg : Config} (hjwt : JwtContract lib cfg) {token : String}
    {now : Time} (h : Expired lib cfg token now) (db : DB) (env : ValidateEnv)
    (hnow : now ≤ env.parseNow) :
    ∃ e, ValidateToken lib cfg db env token = .error e := by
  obtain ⟨t0, claims, e, hp, hexp, hle⟩ := h
  apply ValidateToken_fails_of_parse
  intro c hc
  have hcc := hjwt.stable token t0 env.parseNow claims c hp hc
  subst hcc
  have hlt := hjwt.before_exp token env.parseNow claims e hc hexp
  exact absurd (lt_of_lt_of_le hlt (le_trans hle hnow)) (lt_irrefl _)

theorem dead_rejected {lib : Lib} {cfg : Config} (hjwt : JwtContract lib cfg) {token : String}
    {w : World} (h : Expired lib cfg token w.now ∨ Revoked lib cfg w.db token)
    (env : ValidateEnv) (hlater : w.now ≤ env.parseNow) (hns : NoStraddle lib cfg token env) :
    ∃ e, ValidateToken lib cfg w.db env token = .error e := by
  rcases h with h | ⟨b, hb, htok, t0, claims, hp, hexp⟩
  · exact Expired_rejected hjwt h w.db env hlater
  · rcases hns t0 claims b.ExpiresAt hp hexp with hlive | hdead
    · exact ValidateToken_fails_of_liveRow lib cfg w.db env token ⟨b, hb, htok, hlive⟩
    · exact Expired_rejected hjwt ⟨t0, claims, b.ExpiresAt, hp, hexp, hdead⟩ w.db env
        (le_refl _)

theorem Logout_keeps_rows (lib : Lib) (cfg : Config) (env : LogoutEnv) (r : Request) (db : DB) :
    ∀ b ∈ db.blacklisted_tokens,
      b ∈ (AuthController.Logout lib cfg env r db).2.blacklisted_tokens := by
  intro b hb
  unfold AuthController.Logout
  split
  · exact hb
  · dsimp only
    split
    · exact hb
    · split
      · exact hb
      · split
        · exact hb
        · split
          · exact hb
          · rename_i db' hins
            rw [BlacklistToken_ok hins]
            simp [hb]

theorem AuthMiddleware_keeps_rows (lib : Lib) (cfg : Config) (gate : ValidateEnv) (next : Handler)
    (hnext : ∀ r db, ∀ b ∈ db.blacklisted_tokens, b ∈ (next r db).2.blacklisted_tokens)
    (r : Request) (db : DB) :
    ∀ b ∈ db.blacklisted_tokens,
      b ∈ (AuthMiddleware lib cfg gate next r db).2.blacklisted_tokens := by
  intro b hb
  unfold AuthMiddleware
  simp only
  split
  · exact hb
  · split
    · exact hb
    · split
      · exact hb
      · exact hnext _ _ b hb

theorem Revoked_of_rows {lib : Lib} {cfg : Config} {db db' : DB} {token : String}
    (h : Revoked lib cfg db token)
    (hrows : ∀ b ∈ db.blacklisted_tokens, b ∈ db'.blacklisted_tokens) :
    Revoked lib cfg db' token := by
  obtain ⟨b, hb, rest⟩ := h
  exact ⟨b, hrows b hb, rest⟩

theorem step_keeps_dead {lib : Lib} {cfg : Config} {token : String} {w : World}
    (h : Expired lib cfg token w.now ∨ Revoked lib cfg w.db token) (s : Step) :
    Expired lib cfg token (step lib cfg w s).now ∨ Revoked lib cfg (step lib cfg w s).db token := by
  cases s with
  | tick later =>
    rcases h with ⟨t0, claims, e, hp, hexp, hle⟩ | h
    · exact Or.inl ⟨t0, claims, e, hp, hexp, le_trans hle (le_max_left _ _)⟩
    · exact Or.inr h
  | logout gate env r =>
    rcases h with h | h
    · exact Or.inl h
    · exact Or.inr (Revoked_of_rows h
        (AuthMiddleware_keeps_rows lib cfg gate _ (Logout_keeps_rows lib cfg env) r w.db))
  | logoutHandler env r =>
    rcases h with h | h
    · exact Or.inl h
    · exact Or.inr (Revoked_of_rows h (Logout_keeps_rows lib cfg env r w.db))
  | cleanup fault =>
    cases fault with
    | some e => exact h
    | none =>
      rcases h with h | ⟨b, hb, htok, t0, claims, hp, hexp⟩
      · exact Or.inl h
      · by_cases hlive : b.ExpiresAt ≤ w.now
        · exact Or.inl ⟨t0, claims, b.ExpiresAt, hp, hexp, hlive⟩
        · refine Or.inr ⟨b, ?_, htok, t0, claims, hp, hexp⟩
          simp [step, TokenRepository.CleanupExpiredTokens, hb, hlive]

theorem run_keeps_dead {lib : Lib} {cfg : Config} {token : String} (steps : List Step) :
    ∀ w : World, (Expired lib cfg token w.now ∨ Revoked lib cfg w.db token) →
      (Expired lib cfg token (run lib cfg w steps).now ∨
        Revoked lib cfg (run lib cfg w steps).db token) := by
  induction steps with
  | nil => intro w h; exact h
  | cons s rest ih =>
    intro w h
    exact ih (step lib cfg w s) (step_keeps_dead h s)

theorem Revoked_after_Logout {lib : Lib} {cfg : Config} {env : LogoutEnv} {r : Request}
    {db db' : DB} {resp : Response}
    (hlogout : AuthController.Logout lib cfg env r db = (.wrote resp, db'))
    (hok : resp.status = 200) :
    Revoked lib cfg db' r.bearer := by
  obtain ⟨userID, claims, expiresAt, -, -, -, hval, hexp, hins, -⟩ := Logout_success hlogout hok
  rw [BlacklistToken_ok hins]
  exact ⟨{ ID := env.newID, Token := r.bearer, UserID := userID, ExpiresAt := expiresAt,
           CreatedAt := env.insertNow },
    by simp, rfl, env.validate.parseNow, claims, parseStep_of_ValidateToken hval, hexp⟩

theorem demoLib_contract : JwtContract demoLib demoCfg := by
  have key : ∀ s now claims, parseStep demoLib demoCfg s now = .ok claims →
      (s = "T1" ∧ now < 100 ∧
        claims = { UserID := 1, ExpiresAt := some 100, IssuedAt := some 0, Subject := "1" }) ∨
      (s = "T2" ∧ now < 200 ∧
        claims = { UserID := 2, ExpiresAt := some 200, IssuedAt := some 0, Subject := "2" }) ∨
      (s = "noexp" ∧
        claims = { UserID := 1, ExpiresAt := none, IssuedAt := none, Subject := "1" }) := by
    intro s now claims h
    simp only [parseStep, demoLib, keyFunc, demoCfg] at h
    by_cases h1 : s = "T1"
    · by_cases hn : now < 100
      · simp [h1, hn] at h
        exact Or.inl ⟨h1, hn, h.symm⟩
      · simp [h1, hn] at h
    · by_cases h2 : s = "T2"
      · by_cases hn : now < 200
        · simp [h2, hn] at h
          exact Or.inr (Or.inl ⟨h2, hn, h.symm⟩)
        · simp [h2, hn] at h
      · by_cases h3 : s = "noexp"
        · simp [h3] at h
          exact Or.inr (Or.inr ⟨h3, h.symm⟩)
        · simp [h1, h2, h3] at h
  constructor
  · intro s now claims e h hexp
    rcases key s now claims h with ⟨-, hn, hc⟩ | ⟨-, hn, hc⟩ | ⟨-, hc⟩
    · subst hc; simp at hexp; subst hexp; exact hn
    · subst hc; simp at hexp; subst hexp; exact hn
    · subst hc; simp at hexp
  · intro s now now' c c' h h'
    rcases key s now c h with ⟨hs, -, hc⟩ | ⟨hs, -, hc⟩ | ⟨hs, hc⟩ <;>
      rcases key s now' c' h' with ⟨hs', -, hc'⟩ | ⟨hs', -, hc'⟩ | ⟨hs', hc'⟩ <;>
      first
        | exact absurd (hs.symm.trans hs') (by decide)
        | rw [hc, hc']

/-- C11, as amended. Assume of the JWT package that it accepts a token only
before its `exp` and decodes the same claims from a string at every clock.
Let a token be expired (its `exp` is at or before the clock) or revoked (the
ledger holds the row `Logout` inserts for it) in some world.  Then after every
sequence of steps drawn from clock advances, logouts of any token (behind the
gate or not, with any readings) and `CleanupExpiredTokens`, every
`ValidateToken` call that reads the clock no earlier than the world reached,
and whose two clock readings are not separated by the token's expiry, rejects
the token, whatever the store reports.  A successful `Logout` of the token
puts it in the revoked state, so the same holds from the world that logout
leaves; and in particular such a call after one `CleanupExpiredTokens` still
rejects it. -/
theorem no_return_to_valid (lib : Lib) (cfg : Config) (hjwt : JwtContract lib cfg)
    (token : String) (w : World) :
    (Expired lib cfg token w.now ∨ Revoked lib cfg w.db token →
      ∀ (steps : List Step) (env : ValidateEnv),
        (run lib cfg w steps).now ≤ env.parseNow → NoStraddle lib cfg token env →
        ∃ e, ValidateToken lib cfg (run lib cfg w steps).db env token = .error e) ∧
    (∀ (lenv : LogoutEnv) (r : Request) (resp : Response) (db' : DB),
      AuthController.Logout lib cfg lenv r w.db = (.wrote resp, db') → resp.status = 200 →
      r.bearer = token →
      ∀ (steps : List Step) (env : ValidateEnv),
        (run lib cfg { db := db', now := w.now } steps).now ≤ env.parseNow →
        NoStraddle lib cfg token env →
        ∃ e, ValidateToken lib cfg (run lib cfg { db := db', now := w.now } steps).db env token
            = .error e) ∧
    (Expired lib cfg token w.now ∨ Revoked lib cfg w.db token →
      ∀ (cleanupFault : Option String) (env : ValidateEnv),
        w.now ≤ env.parseNow → NoStraddle lib cfg token env →
        ∃ e, ValidateToken lib cfg (step lib cfg w (.cleanup cleanupFault)).db env token
          = .error e) := by
  refine ⟨fun h steps env hlater hns => ?_,
    fun lenv r resp db' hlogout hok hr steps env hlater hns => ?_,
    fun h cleanupFault env hlater hns => ?_⟩
  · exact dead_rejected hjwt (run_keeps_dead steps w h) env hlater hns
  · have hrev : Revoked lib cfg db' token := hr ▸ Revoked_after_Logout hlogout hok
    exact dead_rejected hjwt
      (run_keeps_dead steps { db := db', now := w.now } (Or.inr hrev)) env hlater hns
  · have hdead := @step_keeps_dead lib cfg token w h (.cleanup cleanupFault)
    have hnow : (step lib cfg w (.cleanup cleanupFault)).now = w.now := by
      cases cleanupFault <;> rfl
    exact dead_rejected hjwt hdead env (by rw [hnow]; exact hlater) hns

theorem NoStraddle_of_one_clock (lib : Lib) (cfg : Config) (token : String) (env : ValidateEnv)
    (h : env.parseNow = env.queryNow) : NoStraddle lib cfg token env := by
  intro t0 claims e _ _
  rw [h]
  exact lt_or_le env.queryNow e

theorem demoLib_T1_expiry (t0 : Time) (claims : Claims) (e : Time)
    (hp : parseStep demoLib demoCfg "T1" t0 = .ok claims) (hexp : claims.ExpiresAt = some e) :
    e = 100 := by
  have hc : claimsT1 = claims := demoLib_contract.stable "T1" 0 t0 claimsT1 claims rfl hp
  rw [← hc] at hexp
  simp only [claimsT1, Option.some.injEq] at hexp
  exact hexp.symm

/-- Worked instance of C11 as amended: `T1`, with expiry 100, is logged out at
clock 10; after every run from there it is rejected by every call that reads
the clock no earlier than the world reached and does not read it before 100
for the parse and at or after 100 for the query; for instance after the clock
has passed the expiry and the cleanup has removed the ledger row. -/
theorem no_return_to_valid_witness :
    (∀ (steps : List Step) (env : ValidateEnv),
      (run demoLib demoCfg { db := demoDBAfterLogout, now := 10 } steps).now ≤ env.parseNow →
      (env.queryNow < 100 ∨ 100 ≤ env.parseNow) →
      ∃ e, ValidateToken demoLib demoCfg
        (run demoLib demoCfg { db := demoDBAfterLogout, now := 10 } steps).db env "T1"
          = .error e) ∧
    run demoLib demoCfg { db := demoDBAfterLogout, now := 10 } [.cleanup none, .tick 150, .cleanup none]
      = { db := demoDB, now := 150 } ∧
    run demoLib demoCfg { db := demoDBAfterLogout, now := 10 } [.cleanup none, .tick 50]
      = { db := demoDBAfterLogout, now := 50 } :=
  ⟨fun steps env hlater hns =>
      (no_return_to_valid demoLib demoCfg demoLib_contract "T1" { db := demoDB, now := 10 }).2.1
        (logoutAt 10 77) demoLogoutRequest logoutResponse demoDBAfterLogout
        (by decide) (by decide) (by decide) steps env hlater
        (fun t0 claims e hp hexp => by rw [demoLib_T1_expiry t0 claims e hp hexp]; exact hns),
    by decide, by decide⟩

/-- Counterexample to C11 as stated, for a library that satisfies the two
assumptions.  `T1`, with expiry 100, is logged out at clock 10 and is rejected
as revoked at clock 50.  The clock advances; a later `ValidateToken` call reads
99 inside the parse step and 100 for the blacklist query: the parse step
accepts, the ledger row is no longer counted, and the revoked token is
accepted. -/
theorem revoked_token_accepted_across_expiry :
    JwtContract demoLib demoCfg ∧
    AuthController.Logout demoLib demoCfg (logoutAt 10 77) demoLogoutRequest demoDB
      = (.wrote logoutResponse, demoDBAfterLogout) ∧
    demoLogoutRequest.bearer = "T1" ∧
    ValidateToken demoLib demoCfg demoDBAfterLogout
        { parseNow := 50, queryNow := 50, queryFault := none } "T1"
      = .error "token is blacklisted" ∧
    run demoLib demoCfg { db := demoDBAfterLogout, now := 50 } [.tick 99]
      = { db := demoDBAfterLogout, now := 99 } ∧
    ValidateToken demoLib demoCfg
        (run demoLib demoCfg { db := demoDBAfterLogout, now := 50 } [.tick 99]).db
        { parseNow := 99, queryNow := 100, queryFault := none } "T1"
      = .ok claimsT1 :=
  ⟨demoLib_contract, by decide, by decide, rfl, by decide, rfl⟩

/-! ## C12: a generated token validates -/

theorem GenerateToken_ok {lib : Lib} {cfg : Config} {env : GenerateEnv} {userID : UUID}
    {tokenString : String} (h : GenerateToken lib cfg env userID = .ok tokenString) :
    lib.SignedString
      { UserID := userID,
        ExpiresAt := some (lib.NewNumericDate (env.expNow + expirationTime lib cfg)),
        IssuedAt := some (lib.NewNumericDate env.iatNow),
        Subject := lib.uuidString userID } cfg.JWT_SECRET = .ok tokenString := by
  unfold GenerateToken at h
  simp only at h
  unfold expirationTime
  split at h
  · simp at h
  · rename_i tok hs
    simp only [Except.ok.injEq] at h
    rw [← h]; exact hs

theorem secondsLib_roundTrip (cfg : Config) (hsecret : cfg.JWT_SECRET = "secret") :
    JwtRoundTrip secondsLib cfg := by
  intro claims tokenString now hs hnow
  simp only [secondsLib, hsecret] at hs
  simp only [secondsLib, keyFunc, hsecret]
  by_cases h1 : claims = shortClaims
  · subst h1
    simp at hs
    subst hs
    have := hnow (11 * Second) rfl
    simp [this]
  · by_cases h2 : claims = straddleClaims
    · subst h2
      simp [h1] at hs
      subst hs
      have := hnow (86410 * Second) rfl
      simp [this]
    · simp [h1, h2] at hs

/-- C12, as amended. Assume the round trip of the JWT package.  If
`GenerateToken` returns a token for user `id`, then `ValidateToken` under the
same configuration accepts it at every clock strictly before the token's
`exp` claim, which is `NewNumericDate` of the clock at issue plus the
time-to-live, in every store where the blacklist query executes and finds no
live row for the token; the claims returned carry `user_id = id`, that `exp`
and the `iat` of issue. -/
theorem generated_token_validates (lib : Lib) (cfg : Config) (hrt : JwtRoundTrip lib cfg)
    (genv : GenerateEnv) (id : UUID) (tokenString : String) (db : DB) (venv : ValidateEnv)
    (hgen : GenerateToken lib cfg genv id = .ok tokenString)
    (hnow : venv.parseNow < lib.NewNumericDate (genv.expNow + expirationTime lib cfg))
    (hunrevoked : ¬ liveRow db tokenString venv.queryNow)
    (hquery : venv.queryFault = none) :
    ∃ claims, ValidateToken lib cfg db venv tokenString = .ok claims ∧
      claims.UserID = id ∧
      claims.ExpiresAt = some (lib.NewNumericDate (genv.expNow + expirationTime lib cfg)) ∧
      claims.IssuedAt = some (lib.NewNumericDate genv.iatNow) := by
  have hparse := hrt _ tokenString venv.parseNow (GenerateToken_ok hgen)
    (fun e he => by simp only [Option.some.injEq] at he; rw [← he]; exact hnow)
  refine ⟨{ UserID := id,
             ExpiresAt := some (lib.NewNumericDate (genv.expNow + expirationTime lib cfg)),
             IssuedAt := some (lib.NewNumericDate genv.iatNow),
             Subject := lib.uuidString id }, ?_, rfl, rfl, rfl⟩
  rw [ValidateToken_eq]
  simp [parseStep, hparse, hquery, IsTokenBlacklisted_executes, hunrevoked]

/-- Worked instance of C12 as amended: the token issued to user 1 at 10 s with
a time-to-live of 1.5 s is accepted at 10.9 s, before its `exp` of 11 s. -/
theorem generated_token_validates_witness :
    ∃ claims, ValidateToken secondsLib shortCfg demoDB (validateAt 10900000000) "short"
        = .ok claims ∧
      claims.UserID = 1 ∧
      claims.ExpiresAt = some (secondsLib.NewNumericDate
        (10 * Second + expirationTime secondsLib shortCfg)) ∧
      claims.IssuedAt = some (secondsLib.NewNumericDate (10 * Second)) :=
  generated_token_validates secondsLib shortCfg (secondsLib_roundTrip shortCfg rfl)
    { expNow := 10 * Second, iatNow := 10 * Second } 1 "short" demoDB (validateAt 10900000000)
    rfl (by decide) (by decide) rfl

/-- Counterexample to C12 as stated, with whole-second numeric dates and a
library that satisfies the round trip.  (1) Time-to-live 1.5 s, issue at 10 s:
`iat` is 10 s and `exp` is 11 s, so at 11.2 s, before `issued_at + ttl` of
11.5 s, the unrevoked token is rejected as expired.  (2) Default 24 hours, the
clock read at 10.999999999 s for `exp` and at 11.000000001 s for `iat`: `exp`
is 86410 s and `iat` is 11 s, so at 86410.5 s, before `issued_at + ttl` of
86411 s, the unrevoked token is rejected as expired. -/
theorem generated_token_rejected_before_iat_plus_ttl :
    JwtRoundTrip secondsLib shortCfg ∧ JwtRoundTrip secondsLib demoCfg ∧
    demoDB.blacklisted_tokens = [] ∧
    (GenerateToken secondsLib shortCfg { expNow := 10 * Second, iatNow := 10 * Second } 1
        = .ok "short" ∧
      parseStep secondsLib shortCfg "short" (10 * Second) = .ok shortClaims ∧
      shortClaims.IssuedAt = some (10 * Second) ∧
      expirationTime secondsLib shortCfg = 1500000000 ∧
      (11200000000 : Time) < 10 * Second + expirationTime secondsLib shortCfg ∧
      ValidateToken secondsLib shortCfg demoDB (validateAt 11200000000) "short"
        = .error "token is expired") ∧
    (GenerateToken secondsLib demoCfg { expNow := 10999999999, iatNow := 11000000001 } 1
        = .ok "straddle" ∧
      parseStep secondsLib demoCfg "straddle" (11 * Second) = .ok straddleClaims ∧
      straddleClaims.IssuedAt = some (11 * Second) ∧
      expirationTime secondsLib demoCfg = 24 * Hour ∧
      (86410500000000 : Time) < 11 * Second + expirationTime secondsLib demoCfg ∧
      ValidateToken secondsLib demoCfg demoDB (validateAt 86410500000000) "straddle"
        = .error "token is expired") :=
  ⟨secondsLib_roundTrip shortCfg rfl, secondsLib_roundTrip demoCfg rfl, rfl,
    ⟨rfl, rfl, rfl, rfl, by decide, rfl⟩,
    ⟨rfl, rfl, rfl, rfl, by decide, rfl⟩⟩

/-! ## C13: the status of an ownership mismatch -/

theorem mismatch_replies (lib : Lib) (r : Request) (db : DB) (t : Todo) (B : UUID)
    (ht : t ∈ db.todos) (huniq : ∀ t' ∈ db.todos, t'.ID = t.ID → t' = t)
    (hne : t.UserID ≠ B) (hctx : GetUserIDFromContext r = (B, none))
    (hid : lib.uuidParse (r.Var "id") = some t.ID) :
    TodoController.GetByID lib none r db = (.wrote (httpError "Unauthorized" 401), db) ∧
    (∀ env : UpdateEnv, env.lookupFault = none →
      TodoController.Update lib env r db = (.wrote (httpError "Unauthorized" 401), db)) ∧
    (∀ env : WriteEnv, env.execFault = none → env.rowsFault = none →
      (TodoController.Delete lib env r db).1 = .wrote (httpError "Failed to delete todo" 500)) := by
  have hfind := find_todo_of_unique ht huniq
  have hmiss := no_hit_of_other_owner huniq hne
  refine ⟨?_, fun env hf => ?_, fun env he hr => ?_⟩
  · simp [TodoController.GetByID, hctx, hid, TodoRepository.GetByID, hfind, hne]
  · simp [TodoController.Update, hctx, hid, TodoRepository.GetByID, hf, hfind, hne]
  · have hnone : db.todos.filter (fun x => x.ID == t.ID && x.UserID == B) = [] := by
      rw [List.filter_eq_nil_iff]
      intro x hx
      rw [hmiss x hx]; exact Bool.false_ne_true
    unfold TodoController.Delete
    rw [hctx]
    simp only [hid, TodoRepository.Delete, he, hr, hnone]
    rfl

/-- C13. The code at an ownership mismatch: for bob (user 2) and alice's todo
11 in a working store, `GetByID` and `Update` answer 401 and `Delete` answers
500; and in general, for a stored todo that is the only row of its id and a
caller who is not its owner, `GetByID` and `Update` answer 401 `Unauthorized`
while `Delete` answers 500 `Failed to delete todo`, so the three statuses are
not the same. -/
theorem ownership_mismatch_not_uniform :
    TodoController.GetByID demoLib none bobRequest demoDB
      = (.wrote (httpError "Unauthorized" 401), demoDB) ∧
    TodoController.Update demoLib (updateAt 20) bobRequest demoDB
      = (.wrote (httpError "Unauthorized" 401), demoDB) ∧
    TodoController.Delete demoLib (writeAt 20) bobRequest demoDB
      = (.wrote (httpError "Failed to delete todo" 500), demoDB) ∧
    (httpError "Unauthorized" 401).status ≠ (httpError "Failed to delete todo" 500).status ∧
    (∀ (lib : Lib) (r : Request) (db : DB) (t : Todo) (B : UUID),
      t ∈ db.todos → (∀ t' ∈ db.todos, t'.ID = t.ID → t' = t) → t.UserID ≠ B →
      GetUserIDFromContext r = (B, none) → lib.uuidParse (r.Var "id") = some t.ID →
      TodoController.GetByID lib none r db = (.wrote (httpError "Unauthorized" 401), db) ∧
      (∀ env : UpdateEnv, env.lookupFault = none →
        TodoController.Update lib env r db = (.wrote (httpError "Unauthorized" 401), db)) ∧
      (∀ env : WriteEnv, env.execFault = none → env.rowsFault = none →
        (TodoController.Delete lib env r db).1
          = .wrote (httpError "Failed to delete todo" 500))) :=
  ⟨by decide, by decide, by decide, by decide,
    fun lib r db t B ht huniq hne hctx hid => mismatch_replies lib r db t B ht huniq hne hctx hid⟩

/-! ## C14: store errors in the authentication paths -/

theorem ValidateToken_error_of_fault (lib : Lib) (cfg : Config) (db : DB) (env : ValidateEnv)
    (tokenString : String) (e : String) (hf : env.queryFault = some e) :
    ∃ e', ValidateToken lib cfg db env tokenString = .error e' := by
  rw [ValidateToken_eq]
  cases parseStep lib cfg tokenString env.parseNow with
  | error e' => exact ⟨e', rfl⟩
  | ok claims => exact ⟨e, by simp [hf, IsTokenBlacklisted_fault]⟩

theorem Logout_query_fault (lib : Lib) (cfg : Config) (env : LogoutEnv) (r : Request) (db : DB)
    (e : String) (hf : env.validate.queryFault = some e) :
    ∃ msg, AuthController.Logout lib cfg env r db = (.wrote (httpError msg 401), db) := by
  obtain ⟨e', he'⟩ := ValidateToken_error_of_fault lib cfg db env.validate
    (trimPrefixStr r.HeaderGetAuthorization "Bearer ") e hf
  unfold AuthController.Logout
  split
  · exact ⟨_, rfl⟩
  · dsimp only
    split
    · exact ⟨_, rfl⟩
    · rw [he']
      exact ⟨_, rfl⟩

theorem BlacklistToken_fault (db : DB) (token : String) (userID : UUID) (expiresAt : Time)
    (id : UUID) (now : Time) (e : String) :
    TokenRepository.BlacklistToken db token userID expiresAt id now (some e) = .error e := rfl

theorem Logout_insert_fault (lib : Lib) (cfg : Config) (env : LogoutEnv) (r : Request) (db : DB)
    (e : String) (hf : env.insertFault = some e) :
    (AuthController.Logout lib cfg env r db).2 = db ∧
    (AuthController.Logout lib cfg env r db).1 ≠ .wrote logoutResponse := by
  unfold AuthController.Logout
  split
  · exact ⟨rfl, by simp [httpError, logoutResponse]⟩
  · dsimp only
    split
    · exact ⟨rfl, by simp [httpError, logoutResponse]⟩
    · split
      · exact ⟨rfl, by simp [httpError, logoutResponse]⟩
      · split
        · exact ⟨rfl, by simp⟩
        · rw [hf, BlacklistToken_fault]
          exact ⟨rfl, by simp [httpError, logoutResponse]⟩

theorem Register_after_lookup_fault (lib : Lib) (cfg : Config) (env : RegisterEnv) (r : Request)
    (db db' : DB) (req : RegisterRequest) (e : String) (user : User) (token : String)
    (hbody : lib.decodeRegister r.Body = some req)
    (hfields : req.Username ≠ "" ∧ req.Email ≠ "" ∧ req.Password ≠ "")
    (hf : env.lookupFault = some e)
    (hcreate : UserRepository.Create lib db env.create
      { ID := uuidNil, Username := req.Username, Email := req.Email, Password := req.Password,
        CreatedAt := 0, UpdatedAt := 0 } = .ok (user, db'))
    (hgen : GenerateToken lib cfg env.generate user.ID = .ok token) :
    AuthController.Register lib cfg env r db = (.wrote (tokenResponse token), db') := by
  obtain ⟨h1, h2, h3⟩ := hfields
  simp [AuthController.Register, hbody, h1, h2, h3, hf, UserRepository.GetByEmail, hcreate, hgen]

theorem Create_fault (lib : Lib) (db : DB) (env : CreateUserEnv) (user : User) (e : String)
    (hf : env.fault = some e) :
    ∃ e', UserRepository.Create lib db env user = .error e' := by
  unfold UserRepository.Create
  cases lib.GenerateFromPassword user.Password env.salt with
  | error e' => exact ⟨e', rfl⟩
  | ok hashed => exact ⟨e, by simp [hf]⟩

theorem Register_create_fault (lib : Lib) (cfg : Config) (env : RegisterEnv) (r : Request)
    (db : DB) (e : String) (hf : env.create.fault = some e) :
    ∃ msg code, AuthController.Register lib cfg env r db = (.wrote (httpError msg code), db) := by
  have hc : ∀ user y, UserRepository.Create lib db env.create user ≠ .ok y := by
    intro user y h
    obtain ⟨e', he'⟩ := Create_fault lib db env.create user e hf
    rw [he'] at h
    cases h
  unfold AuthController.Register
  split
  · exact ⟨_, _, rfl⟩
  · split
    · exact ⟨_, _, rfl⟩
    · split
      · exact ⟨_, _, rfl⟩
      · dsimp only
        split
        · exact ⟨_, _, rfl⟩
        · rename_i h
          exact absurd h (hc _ _)

/-- C14. The code under store errors.  `Register` with a fresh email whose
lookup reports a storage error while the insert executes: the user row is
inserted and a token is returned with status 200; in general a lookup error
is treated as "no such user" and the registration goes on to the insert and
the token.  The other paths do reject: `Register` answers with an error on an
insert error, `Login` answers 401 on a lookup error, `ValidateToken` returns
an error and `AuthMiddleware` answers 401 without calling the handler on a
blacklist-query error, `Logout` answers 401 on a query error and does not
succeed on an insert error, each with the store unchanged. -/
theorem store_error_handling :
    AuthController.Register demoLib demoCfg (registerLookupFails 10 3)
        (bodyRequest "register carol") demoDB
      = (.wrote (tokenResponse "T3"), demoDBWithCarol) ∧
    (tokenResponse "T3").status = 200 ∧
    (∀ (lib : Lib) (cfg : Config) (env : RegisterEnv) (r : Request) (db db' : DB)
        (req : RegisterRequest) (e : String) (user : User) (token : String),
      lib.decodeRegister r.Body = some req →
      (req.Username ≠ "" ∧ req.Email ≠ "" ∧ req.Password ≠ "") →
      env.lookupFault = some e →
      UserRepository.Create lib db env.create
        { ID := uuidNil, Username := req.Username, Email := req.Email, Password := req.Password,
          CreatedAt := 0, UpdatedAt := 0 } = .ok (user, db') →
      GenerateToken lib cfg env.generate user.ID = .ok token →
      AuthController.Register lib cfg env r db = (.wrote (tokenResponse token), db')) ∧
    (∀ (lib : Lib) (cfg : Config) (env : RegisterEnv) (r : Request) (db : DB) (e : String),
      env.create.fault = some e →
      ∃ msg code,
        AuthController.Register lib cfg env r db = (.wrote (httpError msg code), db)) ∧
    (∀ (lib : Lib) (cfg : Config) (env : LoginEnv) (r : Request) (db : DB) (req : LoginRequest)
        (e : String),
      lib.decodeLogin r.Body = some req → (req.Email ≠ "" ∧ req.Password ≠ "") →
      env.lookupFault = some e →
      AuthController.Login lib cfg env r db
        = (.wrote (httpError "Invalid credentials" 401), db)) ∧
    (∀ (lib : Lib) (cfg : Config) (env : ValidateEnv) (r : Request) (db : DB) (e : String),
      env.queryFault = some e →
      (∃ e', ValidateToken lib cfg db env r.bearer = .error e') ∧
      ∃ msg, ∀ next : Handler,
        AuthMiddleware lib cfg env next r db = (.wrote (httpError msg 401), db)) ∧
    (∀ (lib : Lib) (cfg : Config) (env : LogoutEnv) (r : Request) (db : DB) (e : String),
      (env.validate.queryFault = some e →
        ∃ msg, AuthController.Logout lib cfg env r db = (.wrote (httpError msg 401), db)) ∧
      (env.insertFault = some e →
        (AuthController.Logout lib cfg env r db).2 = db ∧
        (AuthController.Logout lib cfg env r db).1 ≠ .wrote logoutResponse)) := by
  refine ⟨by decide, by decide, ?_, ?_, ?_, ?_, ?_⟩
  · intro lib cfg env r db db' req e user token hbody hfields hf hcreate hgen
    exact Register_after_lookup_fault lib cfg env r db db' req e user token hbody hfields hf
      hcreate hgen
  · intro lib cfg env r db e hf
    exact Register_create_fault lib cfg env r db e hf
  · intro lib cfg env r db req e hbody hfields hf
    exact Login_of_verify_error lib cfg env r db req e hbody hfields (by
      simp [UserRepository.VerifyPassword, UserRepository.GetByEmail, hf])
  · intro lib cfg env r db e hf
    obtain ⟨e', he'⟩ := ValidateToken_error_of_fault lib cfg db env r.bearer e hf
    refine ⟨⟨e', he'⟩, ?_⟩
    by_cases hempty : r.HeaderGetAuthorization = ""
    · exact ⟨"Authorization header is required", fun next => by
        simp [AuthMiddleware, hempty]⟩
    · by_cases hpre : hasPrefixStr r.HeaderGetAuthorization "Bearer " = true
      · exact ⟨"Invalid or expired token", fun next =>
          AuthMiddleware_of_error lib cfg env next r db e' hpre he'⟩
      · exact ⟨"Invalid authorization format", fun next => by
          simp [AuthMiddleware, hempty, hpre]⟩
  · intro lib cfg env r db e
    exact ⟨Logout_query_fault lib cfg env r db e, Logout_insert_fault lib cfg env r db e⟩

/-! ## C15: what a successful update stores -/

theorem controller_merge_eq (t : Todo) (req : UpdateTodoRequest) (now : Time) :
    let todo1 : Todo := if req.Title ≠ "" then { t with Title := req.Title } else t
    let todo2 : Todo :=
      if req.Description ≠ "" then { todo1 with Description := req.Description } else todo1
    let todo3 : Todo :=
      match req.Completed with
      | some c => { todo2 with Completed := c }
      | none => todo2
    ({ todo3 with UpdatedAt := now } : Todo) = specUpdatedTodo t req now := by
  rcases req with ⟨title, description, completed⟩
  by_cases h1 : title = "" <;> by_cases h2 : description = "" <;> cases completed <;>
    simp [specUpdatedTodo, h1, h2]

theorem Update_rows (db : DB) (t stored : Todo) (ht : t ∈ db.todos)
    (huniq : ∀ t' ∈ db.todos, t'.ID = t.ID → t' = t)
    (hid : stored.ID = t.ID) (huser : stored.UserID = t.UserID)
    (hcreated : stored.CreatedAt = t.CreatedAt) :
    db.todos.map (fun x =>
        if (x.ID == stored.ID && x.UserID == stored.UserID) = true then
          { x with Title := stored.Title, Description := stored.Description,
                   Completed := stored.Completed, UpdatedAt := stored.UpdatedAt }
        else x)
      = db.todos.map (fun x => if x.ID = t.ID then stored else x) ∧
    (db.todos.filter (fun x => x.ID == stored.ID && x.UserID == stored.UserID)).length ≠ 0 := by
  constructor
  · apply List.map_congr_left
    intro x hx
    by_cases hxid : x.ID = t.ID
    · have hxt := huniq x hx hxid
      subst hxt
      rcases stored with ⟨a, b, c, d, e, f, g⟩
      simp only at hid huser hcreated
      subst hid huser hcreated
      simp
    · simp [hid, hxid]
  · intro h
    have hnil := List.length_eq_zero.1 h
    rw [List.filter_eq_nil_iff] at hnil
    exact hnil t ht (by simp [hid, huser])

theorem TodoRepository_Update_none {db db' : DB} {env : WriteEnv} {todo todo' : Todo}
    (h : TodoRepository.Update db env todo = (none, todo', db')) :
    todo' = { todo with UpdatedAt := env.now } ∧
    db'.users = db.users ∧ db'.blacklisted_tokens = db.blacklisted_tokens ∧
    db'.todos = db.todos.map (fun x =>
      if (x.ID == todo.ID && x.UserID == todo.UserID) = true then
        { x with Title := todo.Title, Description := todo.Description,
                 Completed := todo.Completed, UpdatedAt := env.now }
      else x) := by
  unfold TodoRepository.Update at h
  cases hex : env.execFault with
  | some e => rw [hex] at h; simp at h
  | none =>
    rw [hex] at h
    cases hr : env.rowsFault with
    | some e => rw [hr] at h; simp at h
    | none =>
      rw [hr] at h
      simp only at h
      split at h
      · simp at h
      · simp only [Prod.mk.injEq, true_and] at h
        obtain ⟨h1, h2⟩ := h
        subst h1 h2
        exact ⟨rfl, rfl, rfl, rfl⟩

theorem TodoRepository_Update_succeeds (db : DB) (now : Time) (todo : Todo)
    (hhit : (db.todos.filter (fun x => x.ID == todo.ID && x.UserID == todo.UserID)).length ≠ 0) :
    ∃ db', TodoRepository.Update db (writeAt now) todo
      = (none, { todo with UpdatedAt := now }, db') := by
  unfold TodoRepository.Update
  simp only [writeAt]
  rw [if_neg hhit]
  exact ⟨_, rfl⟩

/-- C15. Let `t` be a stored todo, the only row with its id, owned by the
caller, and let the body decode to `req`.  If `TodoController.Update` answers
200, then the todo table afterwards is the table before with the row `t`
replaced by the row whose title is the request title if non-empty and the old
title otherwise, whose description is the request description if non-empty
and the old one otherwise, whose `completed` is the request value if present
and the old one otherwise, with `id`, owner and `created_at` of `t` (and
`updated_at` the clock of the write); every other row, and the other tables,
are unchanged, and the response carries that row. -/
theorem update_stores_merged_fields (lib : Lib) (env : UpdateEnv) (r : Request) (db db' : DB)
    (t : Todo) (req : UpdateTodoRequest) (resp : Response)
    (ht : t ∈ db.todos)
    (huniq : ∀ t' ∈ db.todos, t'.ID = t.ID → t' = t)
    (hctx : GetUserIDFromContext r = (t.UserID, none))
    (hid : lib.uuidParse (r.Var "id") = some t.ID)
    (hbody : lib.decodeUpdateTodo r.Body = some req)
    (hres : TodoController.Update lib env r db = (.wrote resp, db'))
    (hok : resp.status = 200) :
    db'.todos = db.todos.map
      (fun x => if x.ID = t.ID then specUpdatedTodo t req env.write.now else x) ∧
    specUpdatedTodo t req env.write.now ∈ db'.todos ∧
    (∀ x ∈ db.todos, x.ID ≠ t.ID → x ∈ db'.todos) ∧
    db'.users = db.users ∧ db'.blacklisted_tokens = db.blacklisted_tokens ∧
    resp = todoResponse (specUpdatedTodo t req env.write.now) ∧
    (specUpdatedTodo t req env.write.now).ID = t.ID ∧
    (specUpdatedTodo t req env.write.now).UserID = t.UserID ∧
    (specUpdatedTodo t req env.write.now).CreatedAt = t.CreatedAt := by
  have hfind := find_todo_of_unique ht huniq
  have hmerge := controller_merge_eq t req env.write.now
  simp only at hmerge
  unfold TodoController.Update at hres
  rw [hctx] at hres
  simp only [hid, TodoRepository.GetByID] at hres
  cases hf : env.lookupFault with
  | some e =>
    rw [hf] at hres
    simp only [Prod.mk.injEq, Reply.wrote.injEq] at hres
    rw [← hres.1] at hok; simp [httpError] at hok
  | none =>
    rw [hf] at hres
    simp only [hfind, ne_eq, not_true_eq_false, if_false, hbody] at hres
    split at hres
    · simp only [Prod.mk.injEq, Reply.wrote.injEq] at hres
      rw [← hres.1] at hok; simp [httpError] at hok
    · rename_i todo' db'' hupd
      simp only [Prod.mk.injEq, Reply.wrote.injEq] at hres
      obtain ⟨hresp, hdb⟩ := hres
      subst hdb
      obtain ⟨htodo, husers, hledger, htodos⟩ := TodoRepository_Update_none hupd
      rw [hmerge] at htodo
      have hrows := (Update_rows db t (specUpdatedTodo t req env.write.now) ht huniq
        rfl rfl rfl).1
      have htable : db''.todos = db.todos.map
          (fun x => if x.ID = t.ID then specUpdatedTodo t req env.write.now else x) := by
        rw [htodos, ← hrows]
        apply List.map_congr_left
        intro x _
        rcases req with ⟨title, description, completed⟩
        by_cases h1 : title = "" <;> by_cases h2 : description = "" <;> cases completed <;>
          simp [specUpdatedTodo, h1, h2]
      refine ⟨htable, ?_, ?_, husers, hledger, ?_, rfl, rfl, rfl⟩
      · rw [htable]
        exact List.mem_map.2 ⟨t, ht, by simp⟩
      · intro x hx hne
        rw [htable]
        exact List.mem_map.2 ⟨x, hx, by simp [hne]⟩
      · rw [← hresp, htodo]

/-- Worked instance of C15: alice updates her todo 11 at clock 20 with title
`changed`, no description and `completed = true`; the description is kept and
bob's todo 12 is untouched. -/
theorem update_stores_merged_fields_witness :
    TodoController.Update demoLib (updateAt 20) aliceRequest demoDB
      = (.wrote (todoResponse (specUpdatedTodo aliceTodo
          { Title := "changed", Description := "", Completed := some true } 20)),
         demoDBAfterUpdate) ∧
    demoDBAfterUpdate.todos = demoDB.todos.map
      (fun x => if x.ID = aliceTodo.ID then specUpdatedTodo aliceTodo
        { Title := "changed", Description := "", Completed := some true }
        (updateAt 20).write.now else x) ∧
    specUpdatedTodo aliceTodo { Title := "changed", Description := "", Completed := some true }
      (updateAt 20).write.now ∈ demoDBAfterUpdate.todos :=
  ⟨by decide,
   (update_stores_merged_fields demoLib (updateAt 20) aliceRequest demoDB demoDBAfterUpdate
      aliceTodo { Title := "changed", Description := "", Completed := some true }
      (todoResponse (specUpdatedTodo aliceTodo
        { Title := "changed", Description := "", Completed := some true } 20))
      (by decide) (by decide) (by decide) (by decide) (by decide) (by decide) (by decide)).1,
   (update_stores_merged_fields demoLib (updateAt 20) aliceRequest demoDB demoDBAfterUpdate
      aliceTodo { Title := "changed", Description := "", Completed := some true }
      (todoResponse (specUpdatedTodo aliceTodo
        { Title := "changed", Description := "", Completed := some true } 20))
      (by decide) (by decide) (by decide) (by decide) (by decide) (by decide) (by decide)).2.1⟩

end TodoApp
